import Mathlib

/-!
# Verification of the nuxeo-operator backing-service binding engine

This file gives a shallow embedding, in Lean 4, of the backing-service
binding engine of the nuxeo-operator repository
(`pkg/controller/nuxeo/backing_service.go`, `controllers/nuxeo/mergeutil.go`,
and the generic reconciliation helpers), together with theorems settling the
frozen claims about that code.

Modelling conventions:
* Go byte slices (`[]byte`) are modelled as Lean `String` values, treated as
  opaque blobs.  A nil byte slice inside a map value is identified with the
  empty string (no behaviour modelled here distinguishes them); a nil byte
  slice *returned* from a lookup is modelled as `Option` `none`.
* Go maps are modelled as association lists with unique keys, where
  assignment replaces an existing entry or appends a new one.
* The Kubernetes cluster store is modelled as association lists of objects
  keyed by object name (a single namespace is modelled; the Go code threads
  one namespace through every call).  A `Get` can additionally fail with a
  non-not-found error, modelled by a list of names whose retrieval fails.
* Mutation through Go pointers is modelled by explicit state passing: each
  operation returns the (possibly unchanged) state together with an
  `Option String` error, mirroring Go's `error` return.  An early `return`
  in Go yields the state as mutated so far.
* The runtime `scheme` is assumed to have every group/version/kind of
  interest registered, so `scheme.New` never fails in the model.
-/

/-- Byte blobs (`[]byte` in Go), treated as opaque strings. -/
abbrev Bytes := String

/-- Go map lookup on an association list: first entry with the given key. -/
def alookup (m : List (String × α)) (k : String) : Option α :=
  match m with
  | [] => none
  | (k', v) :: rest => if k' = k then some v else alookup rest k

/-- Go map assignment on an association list: replace the entry for `k` if
present, otherwise append `(k, v)`. -/
def ainsert (m : List (String × α)) (k : String) (v : α) : List (String × α) :=
  match m with
  | [] => [(k, v)]
  | (k', v') :: rest =>
      if k' = k then (k', v) :: rest else (k', v') :: ainsert rest k v

/-- Go map key deletion on an association list. -/
def aerase (m : List (String × α)) (k : String) : List (String × α) :=
  m.filter (fun e => decide (e.1 ≠ k))

/-! ## The declarative data model (`v1alpha1` types, as used by the engine)

The `BackingService` family of CRD types is not among the provided sources;
their fields are reconstructed from every use site in
`backing_service.go` (fields `Key`, `Path`, `Env`, `Mount`, `Transform`,
`Group`, `Version`, `Kind`, `Name`, `Projections`, and the `CertTransform`
fields `Type`, `Store`, `Password`, `PassEnv`). -/

/-- Source `v1alpha1.CertTransform`; the Go zero value has every field `""`. -/
structure CertTransform where
  type : String
  store : String
  password : String
  passEnv : String
deriving DecidableEq, Repr

/-- The Go zero value `v1alpha1.CertTransform{}`. -/
def zeroTransform : CertTransform := ⟨"", "", "", ""⟩

/-- Source `v1alpha1.ResourceProjection`. -/
structure ResourceProjection where
  key : String
  path : String
  env : String
  mount : String
  transform : CertTransform
deriving DecidableEq, Repr

/-- Zero-valued projection (used only for out-of-range indexing, which the
source never performs because every caller iterates `0 ≤ i < len`). -/
def zeroProjection : ResourceProjection := ⟨"", "", "", "", zeroTransform⟩

/-- Source `v1alpha1.BackingServiceResource`. -/
structure BackingServiceResource where
  group : String
  version : String
  kind : String
  name : String
  projections : List ResourceProjection
deriving DecidableEq, Repr

/-- Source `resource.Projections[idx]` (callers guarantee `idx` in range). -/
def projAt (resource : BackingServiceResource) (idx : Nat) : ResourceProjection :=
  (resource.projections[idx]?).getD zeroProjection

/-- Source `v1alpha1.BackingService` (the fields the engine reads). -/
structure BackingService where
  name : String
  resources : List BackingServiceResource
  nuxeoConf : String
deriving DecidableEq, Repr

/-- The Nuxeo custom-resource instance (the fields the engine reads:
`instance.Name` and, for ownership checks, its UID). -/
structure NuxeoInstance where
  name : String
  uid : String
deriving DecidableEq, Repr

/-! ## Kubernetes object and deployment model (the fields the engine uses) -/

/-- Source `corev1.KeyToPath`. -/
structure KeyToPath where
  key : String
  path : String
deriving DecidableEq, Repr

/-- Source `corev1.SecretProjection` (name + items). -/
structure SecretProjectionSrc where
  name : String
  items : List KeyToPath
deriving DecidableEq, Repr

/-- Source `corev1.ConfigMapProjection` (name + items). -/
structure ConfigMapProjectionSrc where
  name : String
  items : List KeyToPath
deriving DecidableEq, Repr

/-- Source `corev1.VolumeProjection`: at most one of the two pointers is non-nil in
every value this code builds. -/
structure VolumeProjection where
  secret : Option SecretProjectionSrc
  configMap : Option ConfigMapProjectionSrc
deriving DecidableEq, Repr

/-- Source `corev1.ProjectedVolumeSource`. -/
structure ProjectedVolumeSource where
  defaultMode : Option Int
  sources : List VolumeProjection
deriving DecidableEq, Repr

/-- Source `corev1.Volume`: only the projected volume source is modelled (`projected
= none` models a volume whose source is of any other sort). -/
structure Volume where
  name : String
  projected : Option ProjectedVolumeSource
deriving DecidableEq, Repr

/-- Source `corev1.VolumeMount`. -/
structure VolumeMount where
  name : String
  readOnly : Bool
  mountPath : String
deriving DecidableEq, Repr

/-- Source `corev1.EnvVarSource`: a secret or config-map key reference,
as `(objectName, key)`. -/
structure EnvVarSource where
  secretKeyRef : Option (String × String)
  configMapKeyRef : Option (String × String)
deriving DecidableEq, Repr

/-- Source `corev1.EnvVar`. -/
structure EnvVar where
  name : String
  valueFrom : Option EnvVarSource
deriving DecidableEq, Repr

/-- Source `corev1.Container` (the fields the engine touches). -/
structure Container where
  name : String
  env : List EnvVar
  volumeMounts : List VolumeMount
deriving DecidableEq, Repr

/-- Source `appsv1.Deployment`, flattened to `.Spec.Template.Spec`. -/
structure Deployment where
  containers : List Container
  volumes : List Volume
deriving DecidableEq, Repr

/-- A `corev1.Secret`: name, annotations, data, stringData, plus the owner
reference UIDs from its metadata. -/
structure SecretObj where
  name : String
  annotations : List (String × String)
  data : List (String × Bytes)
  stringData : List (String × String)
  resourceVersion : String
  ownerUids : List String
deriving DecidableEq, Repr

/-- A `corev1.ConfigMap` (the fields the engine reads). -/
structure ConfigMapObj where
  name : String
  data : List (String × String)
  resourceVersion : String
deriving DecidableEq, Repr

/-- An arbitrary non-Secret/non-ConfigMap cluster object, exposed to the
engine only through JSONPath evaluation: `pathVals` holds the paths that
evaluate to a value, `pathErrs` the paths whose evaluation fails. -/
structure GenericObj where
  name : String
  pathVals : List (String × Bytes)
  pathErrs : List String
deriving DecidableEq, Repr

/-- Decidable equality for `Except`, used to evaluate the model on concrete
inputs. -/
instance exceptDecEq [DecidableEq ε] [DecidableEq α] : DecidableEq (Except ε α) :=
  fun a b =>
    match a, b with
    | .error e, .error f =>
        if h : e = f then .isTrue (by rw [h]) else .isFalse (by intro c; cases c; exact h rfl)
    | .ok x, .ok y =>
        if h : x = y then .isTrue (by rw [h]) else .isFalse (by intro c; cases c; exact h rfl)
    | .error _, .ok _ => .isFalse (by intro c; cases c)
    | .ok _, .error _ => .isFalse (by intro c; cases c)

/-- Result of a cluster-store `Get`: the object, a not-found error, or any
other retrieval error. -/
inductive GetResult (α : Type) where
  | found (a : α)
  | notFound
  | err (msg : String)
deriving DecidableEq, Repr

/-- The cluster store (one namespace).  `failing` lists object names whose
retrieval fails with a non-not-found (transient) error. -/
structure Cluster where
  secrets : List (String × SecretObj)
  configMaps : List (String × ConfigMapObj)
  others : List (String × GenericObj)
  failing : List String
deriving DecidableEq, Repr

/-- Source `r.client.Get` for a Secret. -/
def getSecret (cl : Cluster) (name : String) : GetResult SecretObj :=
  if cl.failing.contains name then .err "transient error" else
  match alookup cl.secrets name with
  | some o => .found o
  | none => .notFound

/-- Source `r.client.Get` for a ConfigMap. -/
def getConfigMap (cl : Cluster) (name : String) : GetResult ConfigMapObj :=
  if cl.failing.contains name then .err "transient error" else
  match alookup cl.configMaps name with
  | some o => .found o
  | none => .notFound

/-- Source `r.client.Get` for an arbitrary typed object. -/
def getOther (cl : Cluster) (name : String) : GetResult GenericObj :=
  if cl.failing.contains name then .err "transient error" else
  match alookup cl.others name with
  | some o => .found o
  | none => .notFound

/-- Source `r.client.Create` / `r.client.Update` for a Secret (store by name). -/
def putSecret (cl : Cluster) (obj : SecretObj) : Cluster :=
  { cl with secrets := ainsert cl.secrets obj.name obj }

/-- Source `r.client.Delete` for a Secret. -/
def deleteSecret (cl : Cluster) (name : String) : Cluster :=
  { cl with secrets := aerase cl.secrets name }

/-- Source `util.GetJsonPathValue(obj, path)`: `(nil, err)` on evaluation failure,
`(nil, nil)` when the path matches nothing, else the matched bytes. -/
def getJsonPathValue (obj : GenericObj) (path : String) : Except String (Option Bytes) :=
  if obj.pathErrs.contains path then .error "jsonpath evaluation error"
  else .ok (alookup obj.pathVals path)

/-! ## Pure helpers translated from `backing_service.go` -/

/-- ASCII lower-casing of one character (`strings.ToLower` acts per rune; the
strings this engine lower-cases are ASCII Kubernetes identifiers). -/
def lowerChar (c : Char) : Char :=
  if 65 ≤ c.toNat ∧ c.toNat ≤ 90 then Char.ofNat (c.toNat + 32) else c

/-- Source `strings.ToLower`. -/
def strToLower (s : String) : String := String.mk (s.toList.map lowerChar)

/-- The lower-cased `group.version.kind` string the engine dispatches on. -/
def gvkOf (resource : BackingServiceResource) : String :=
  strToLower (resource.group ++ "." ++ resource.version ++ "." ++ resource.kind)

/-- Source `isSecret` (backing_service.go): the resource is a core-v1 Secret. -/
def isSecret (resource : BackingServiceResource) : Bool :=
  gvkOf resource = ".v1.secret"

/-- Source `isConfigMap` (backing_service.go): the resource is a core-v1 ConfigMap. -/
def isConfigMap (resource : BackingServiceResource) : Bool :=
  gvkOf resource = ".v1.configmap"

/-- Replace the leftmost occurrence of `pat` (non-empty) in a character list. -/
def replaceFirstChars (pat rep : List Char) : List Char → List Char
  | [] => []
  | c :: rest =>
      if pat.isPrefixOf (c :: rest) then rep ++ (c :: rest).drop pat.length
      else c :: replaceFirstChars pat rep rest

/-- Source `strings.Replace(s, pat, rep, 1)`: replace the first occurrence (this
engine only uses it with the non-empty pattern `".."`). -/
def replaceFirst (s pat rep : String) : String :=
  String.mk (replaceFirstChars pat.toList rep.toList s.toList)

/-- Source `genAnnotationKey` (backing_service.go): the deterministic secondary-secret
annotation key `nuxeo.operator.G.V.K.N` for an upstream resource, with the
double dot from an empty group collapsed once. -/
def genAnnotationKey (resource : BackingServiceResource) : String :=
  replaceFirst
    ("nuxeo.operator." ++ strToLower resource.group ++ "." ++ strToLower resource.version ++
      "." ++ strToLower resource.kind ++ "." ++ strToLower resource.name)
    ".." "."

/-- Character class `[-._a-zA-Z0-9]` of the `pathToKey` regex. -/
def keyChar (c : Char) : Bool :=
  c = '-' ∨ c = '.' ∨ c = '_' ∨ c.isAlpha ∨ c.isDigit

/-- Source `pathToKey` (backing_service.go): strips every character outside
`[-._a-zA-Z0-9]` from a JSONPath expression (the regex compile step cannot
fail for this constant pattern, so no error case arises). -/
def pathToKey (jsonPath : String) : String :=
  String.mk (jsonPath.toList.filter keyChar)

/-- Source `projectionsAreValid` (backing_service.go): structural validation of the
projection list of one backing-service resource, keyed on its lower-cased
group/version/kind. -/
def projectionsAreValid (gvk : String) (projections : List ResourceProjection) : Bool :=
  match projections with
  | [] => true
  | projection :: rest =>
      if gvk = ".v1.secret" ∨ gvk = ".v1.configmap" then
        if projection.key = "" ∨ projection.path ≠ "" ∨
            (projection.env = "" ∧ projection.mount = "" ∧ projection.transform = zeroTransform) then
          false
        else projectionsAreValid gvk rest
      else
        if projection.key ≠ "" ∨ projection.path = "" ∨ projection.env ≠ "" ∨
            (projection.mount = "" ∧ projection.transform = zeroTransform) then
          false
        else projectionsAreValid gvk rest

/-! ## The Transform Engine and missing `util` helpers (spec-modelled)

The Transform Engine, `util.GetEnv`, `util.OnlyAdd`, `util.SecretCompare` and
`v1alpha1.Nuxeo.IsOwnerUids` belong to this repository but are not among the
provided sources; they are modelled from the spec. -/

/-- Modelled from the spec: the random password generated by the Transform
Engine — "a fresh password every time the store is (re)computed".  Randomness
is modelled by an explicit generator state `rng`. -/
def genPassword (rng : Nat) : String := "pw-" ++ toString rng

/-- Modelled from the spec: the password-protected trust-store blob packaged
from the parsed certificate material. -/
def mkTrustStore (certPem : Bytes) (pass : String) : Bytes :=
  "jks:" ++ pass ++ ":" ++ certPem

/-- Modelled from the spec: `toTrustStoreFromBytes` of the Transform Engine
(§4.3), absent from the provided sources.  Parses PEM certificate material
(malformed or absent material — modelled as the empty blob — is a terminal
error) and packages it into a password-protected store with a freshly
generated password. -/
def toTrustStoreFromBytes (rng : Nat) (resVal : Bytes) : Except String (Bytes × String) :=
  if resVal = "" then .error "invalid certificate material"
  else .ok (mkTrustStore resVal (genPassword rng), genPassword rng)

/-- Modelled from the spec: `util.GetEnv`, absent from the provided sources;
its call sites use it as "the env var with this name in the container, or
nil". -/
def getEnvVar (container : Container) (name : String) : Option EnvVar :=
  container.env.find? (fun e => e.name = name)

/-- Modelled from the spec: `util.OnlyAdd`, absent from the provided sources.
Per §4.5 a duplicate environment-variable name is a fatal error; modelled as:
append when the name is absent, keep silently when an identical variable is
already present, error on a conflicting duplicate. -/
def onlyAdd (container : Container) (env : EnvVar) : Option String × Container :=
  match getEnvVar container env.name with
  | some existing =>
      if existing = env then (none, container)
      else (some ("duplicate environment variable " ++ env.name), container)
  | none => (none, { container with env := container.env ++ [env] })

/-- Modelled from the spec: `util.SecretCompare`, absent from the provided
sources.  Per the comparer contract in the generic reconciliation helper it
reports logical equality of expected and found and, when unequal, copies
expected's state into found; modelled as structural equality of the
reconciled content. -/
def secretCompare (expected fnd : SecretObj) : Bool :=
  expected.annotations = fnd.annotations ∧ expected.data = fnd.data ∧
    expected.stringData = fnd.stringData

/-- Modelled from the spec: `v1alpha1.Nuxeo.IsOwnerUids`, absent from the
provided sources; per the ownership rule ("owned by this application
instance") it reports whether the instance's UID is among the owner-reference
UIDs. -/
def isOwnerUids (inst : NuxeoInstance) (uids : List String) : Bool :=
  uids.contains inst.uid

/-! ## `backing_service.go`: cluster-value lookup and the secondary secret -/

/-- The JSONPath expression `\x7b.metadata.resourceVersion\x7d` used to read a
generic object's version token. -/
def metaResVerPath : String := "\x7b.metadata.resourceVersion\x7d"

/-- Source `getValueFromResource` (backing_service.go): fetches the upstream object
named by the resource's GVK+name and extracts the projected value (by key for
Secrets/ConfigMaps, by JSONPath otherwise) plus the object's version token.
A not-found object yields `(nil, "", nil)`; the returned `Option` is `none`
exactly when the Go function returns a nil byte slice. -/
def getValueFromResource (cl : Cluster) (resource : BackingServiceResource)
    (idx : Nat) : Except String (Option Bytes × String) :=
  let gvk := gvkOf resource
  if gvk = ".v1.secret" then
    if (projAt resource idx).key = "" then .error "no key provided in projection"
    else
      match getSecret cl resource.name with
      | .notFound => .ok (none, "")
      | .err m => .error m
      | .found obj => .ok (alookup obj.data (projAt resource idx).key, obj.resourceVersion)
  else if gvk = ".v1.configmap" then
    if (projAt resource idx).key = "" then .error "no key provided in projection"
    else
      match getConfigMap cl resource.name with
      | .notFound => .ok (none, "")
      | .err m => .error m
      | .found obj =>
          .ok (some ((alookup obj.data (projAt resource idx).key).getD ""), obj.resourceVersion)
  else
    if (projAt resource idx).path = "" then .error "no path provided in projection"
    else
      match getOther cl resource.name with
      | .notFound => .ok (none, "")
      | .err m => .error m
      | .found obj =>
          let resVer :=
            match getJsonPathValue obj metaResVerPath with
            | .ok (some rv) => rv
            | _ => ""
          match getJsonPathValue obj (projAt resource idx).path with
          | .error e => .error e
          | .ok resVal => .ok (resVal, resVer)

/-- Source `defaultSecondarySecret` (backing_service.go): the empty in-memory
secondary-secret draft, named `<instance>-secondary-<binding>` and owned by
the Nuxeo instance (`SetControllerReference`). -/
def defaultSecondarySecret (inst : NuxeoInstance) (backingService : BackingService) : SecretObj :=
  { name := inst.name ++ "-secondary-" ++ backingService.name
    annotations := []
    data := []
    stringData := []
    resourceVersion := ""
    ownerUids := [inst.uid] }

/-- Source `secondarySecretIsCurrent` (backing_service.go): true iff the secondary
secret exists in-cluster and its annotation for this upstream resource equals
the current version token. -/
def secondarySecretIsCurrent (cl : Cluster) (secondarySecretName : String)
    (resource : BackingServiceResource) (resourceVersion : String) : Bool :=
  match getSecret cl secondarySecretName with
  | .found obj =>
      match alookup obj.annotations (genAnnotationKey resource) with
      | some existingResVer => existingResVer = resourceVersion
      | none => false
  | _ => false

/-- Source `loadSecondary` (backing_service.go): copies the listed keys from the
in-cluster secondary secret into the in-memory draft and sets the version
annotation for the upstream resource. -/
def loadSecondary (cl : Cluster) (resource : BackingServiceResource)
    (secondarySecret : SecretObj) (resVer : String) (keys : List String) :
    Option String × SecretObj :=
  match getSecret cl secondarySecret.name with
  | .found obj =>
      (none,
        { secondarySecret with
          annotations := ainsert secondarySecret.annotations (genAnnotationKey resource) resVer
          data := keys.foldl (fun d k => ainsert d k ((alookup obj.data k).getD "")) secondarySecret.data })
  | .notFound => (some "secondary secret not found", secondarySecret)
  | .err m => (some m, secondarySecret)

/-- Source `populateSecondaryNew` (backing_service.go): annotates the draft with the
upstream version token, converts the upstream value to a trust store, and
stores the trust-store blob and its fresh password under the two keys. -/
def populateSecondaryNew (rng : Nat) (resource : BackingServiceResource)
    (secondarySecret : SecretObj) (storeKey passKey resVer : String)
    (resVal : Bytes) : Option String × SecretObj :=
  let s1 := { secondarySecret with
    annotations := ainsert secondarySecret.annotations (genAnnotationKey resource) resVer }
  match toTrustStoreFromBytes rng resVal with
  | .error e => (some e, s1)
  | .ok (store, pass) =>
      (none, { s1 with data := ainsert (ainsert s1.data storeKey store) passKey pass })

/-! ## Environment projection and deployment-side merge utilities -/

/-- The fixed mount root (`backingMountBase` in backing_service.go). -/
def backingMountBase : String := "/etc/nuxeo-operator/binding/"

/-- The zero container (used only behind indices known to be in range). -/
def emptyContainer : Container := ⟨"", [], []⟩

/-- Index of the first container named `"nuxeo"`. -/
def findNuxeo : List Container → Option Nat
  | [] => none
  | c :: rest => if c.name = "nuxeo" then some 0 else (findNuxeo rest).map (· + 1)

/-- Source `util.GetNuxeoContainer`: the index of the container named `"nuxeo"` in
the deployment's container array (`none` models the Go error return). -/
def nuxeoContainerIdx (dep : Deployment) : Option Nat :=
  findNuxeo dep.containers

/-- The Go error message of `util.GetNuxeoContainer`. -/
def noNuxeoContainerMsg : String :=
  "could not find a container named nuxeo in the deployment"

/-- Source `projectEnvFrom` (backing_service.go): appends to the nuxeo container an
environment variable whose `valueFrom` references the projection key in the
original Secret or ConfigMap; errors when the resource is neither, when there
is no nuxeo container, or when the variable name is already taken. -/
def projectEnvFrom (resource : BackingServiceResource) (idx : Nat)
    (dep : Deployment) : Option String × Deployment :=
  let projection := projAt resource idx
  let mkResult (env : EnvVar) : Option String × Deployment :=
    match nuxeoContainerIdx dep with
    | none => (some noNuxeoContainerMsg, dep)
    | some ci =>
        let c := (dep.containers[ci]?).getD emptyContainer
        if (getEnvVar c env.name).isSome then
          (some ("invalid backing service projection - attempt to add duplicate environment var: "
            ++ env.name), dep)
        else
          (none, { dep with containers := dep.containers.set ci { c with env := c.env ++ [env] } })
  if isSecret resource then
    mkResult ⟨projection.env, some ⟨some (resource.name, projection.key), none⟩⟩
  else if isConfigMap resource then
    mkResult ⟨projection.env, some ⟨none, some (resource.name, projection.key)⟩⟩
  else
    (some "illegal operation: projectEnvFrom called with resource other than ConfigMap or Secret", dep)

/-- Source `sameSrc` (mergeutil.go): when the two volume projections are of the same
type (Secret first, then ConfigMap) and name, the pair of item lists, with a
flag recording which arm matched (`true` = Secret); otherwise `none`. -/
def sameSrc (src1 src2 : VolumeProjection) :
    Option (List KeyToPath × List KeyToPath × Bool) :=
  match src1.secret, src2.secret with
  | some s1, some s2 =>
      if s1.name = s2.name then some (s1.items, s2.items, true)
      else sameSrcCm src1 src2
  | _, _ => sameSrcCm src1 src2
where
  sameSrcCm (src1 src2 : VolumeProjection) :
      Option (List KeyToPath × List KeyToPath × Bool) :=
    match src1.configMap, src2.configMap with
    | some c1, some c2 =>
        if c1.name = c2.name then some (c1.items, c2.items, false) else none
    | _, _ => none

/-- Write an item list back through the pointer `sameSrc` returned (Secret arm
when the flag is `true`, ConfigMap arm otherwise). -/
def setSrcItems (src : VolumeProjection) (secretArm : Bool)
    (items : List KeyToPath) : VolumeProjection :=
  if secretArm then { src with secret := src.secret.map (fun s => { s with items := items }) }
  else { src with configMap := src.configMap.map (fun c => { c with items := items }) }

/-- The key-merging inner loop of `addVolumeProjectionAndItems`: each incoming
item is checked against every current item; a current item with the same key
and a different path is an error (partial additions made so far persist, as
through the Go pointer), a same-key same-path item is skipped, otherwise the
item is appended. -/
def mergeItems (volName : String) (cur : List KeyToPath) :
    List KeyToPath → Option String × List KeyToPath
  | [] => (none, cur)
  | item :: rest =>
      if cur.any (fun c => c.key = item.key ∧ c.path ≠ item.path) then
        (some ("dup: item " ++ item.key ++ " in volume " ++ volName), cur)
      else if cur.any (fun c => c.key = item.key) then
        mergeItems volName cur rest
      else
        mergeItems volName (cur ++ [item]) rest

/-- Outcome of the volume loop in `addVolumeProjectionAndItems`: either some
iteration executed a `return` (with the volumes as mutated so far), or the
loop fell through to the trailing append. -/
inductive VolLoopOut where
  | ret (e : Option String) (vols : List Volume)
  | fall
deriving DecidableEq, Repr

/-- The volume loop of `addVolumeProjectionAndItems` (mergeutil.go), translated
statement for statement: for each volume of matching name, a non-projected
volume is an error; otherwise the body of `for _, src := range Sources`
returns on its *first* iteration — merging items when `sameSrc` matches and
appending the incoming source otherwise — so a volume with an empty source
list falls through to the next volume. -/
def volLoop (name : String) (src0 : VolumeProjection) :
    List Volume → VolLoopOut
  | [] => .fall
  | vol :: rest =>
      if vol.name = name then
        match vol.projected with
        | none =>
            .ret (some ("cant merge projected vol " ++ name ++ " into non-projected vol " ++ vol.name))
              (vol :: rest)
        | some vp =>
            match vp.sources with
            | [] =>
                match volLoop name src0 rest with
                | .ret e vols => .ret e (vol :: vols)
                | .fall => .fall
            | src :: moreSrcs =>
                match sameSrc src src0 with
                | some (cur, toAddItems, arm) =>
                    let (e, merged) := mergeItems name cur toAddItems
                    .ret e
                      ({ vol with projected := some { vp with sources := setSrcItems src arm merged :: moreSrcs } } :: rest)
                | none =>
                    .ret none
                      ({ vol with projected := some { vp with sources := (src :: moreSrcs) ++ [src0] } } :: rest)
      else
        match volLoop name src0 rest with
        | .ret e vols => .ret e (vol :: vols)
        | .fall => .fall

/-- Source `addVolumeProjectionAndItems` (mergeutil.go): merge a single-source
projected volume into the deployment's volumes. -/
def addVolumeProjectionAndItems (dep : Deployment) (toAdd : Volume) :
    Option String × Deployment :=
  match toAdd.projected with
  | none => (some ("exactly one projection is supported for " ++ toAdd.name), dep)
  | some pvs =>
      if pvs.sources.length ≠ 1 then
        (some ("exactly one projection is supported for " ++ toAdd.name), dep)
      else
        match volLoop toAdd.name (pvs.sources.headD ⟨none, none⟩) dep.volumes with
        | .ret e vols => (e, { dep with volumes := vols })
        | .fall => (none, { dep with volumes := dep.volumes ++ [toAdd] })

/-- Source `addVolMnt` (mergeutil.go): append the mount unless one of the same name
exists — a no-op when identical, an error otherwise. -/
def addVolMnt (container : Container) (mntToAdd : VolumeMount) :
    Option String × Container :=
  match container.volumeMounts.find? (fun mnt => mnt.name = mntToAdd.name) with
  | some mnt =>
      if mnt = mntToAdd then (none, container)
      else (some ("collision trying to add volume mount " ++ mntToAdd.name), container)
  | none => (none, { container with volumeMounts := container.volumeMounts ++ [mntToAdd] })

/-! ## Mount and transform projections -/

/-- The tail shared by both `projectMount` branches: merge the single-source
projected volume into the deployment, then add the read-only per-binding
volume mount to the nuxeo container (index `ci`). -/
def projectMountFinish (backingServiceName : String) (src : VolumeProjection)
    (dep : Deployment) (ci : Nat) (sec : SecretObj) :
    Option String × Deployment × SecretObj :=
  let vol : Volume := ⟨strToLower ("backing-" ++ backingServiceName), some ⟨some 420, [src]⟩⟩
  match addVolumeProjectionAndItems dep vol with
  | (some e, dep') => (some e, dep', sec)
  | (none, dep') =>
      let volMnt : VolumeMount := ⟨vol.name, true, backingMountBase ++ backingServiceName⟩
      let c := (dep'.containers[ci]?).getD emptyContainer
      match addVolMnt c volMnt with
      | (e, c') => (e, { dep' with containers := dep'.containers.set ci c' }, sec)

/-- Source `projectMount` (backing_service.go): projects one mount-target projection
into the per-binding projected volume.  A Secret/ConfigMap source is
referenced directly; any other source has its value copied into the secondary
secret under a sanitized key (silently skipping when the value is nil) and is
projected from there. -/
def projectMount (cl : Cluster) (backingServiceName : String)
    (resource : BackingServiceResource) (idx : Nat) (dep : Deployment)
    (secondarySecret : SecretObj) : Option String × Deployment × SecretObj :=
  match nuxeoContainerIdx dep with
  | none => (some noNuxeoContainerMsg, dep, secondarySecret)
  | some ci =>
      if isSecret resource then
        projectMountFinish backingServiceName
          ⟨some ⟨resource.name, [⟨(projAt resource idx).key, (projAt resource idx).mount⟩]⟩, none⟩
          dep ci secondarySecret
      else if isConfigMap resource then
        projectMountFinish backingServiceName
          ⟨none, some ⟨resource.name, [⟨(projAt resource idx).key, (projAt resource idx).mount⟩]⟩⟩
          dep ci secondarySecret
      else
        match getValueFromResource cl resource idx with
        | .error e => (some e, dep, secondarySecret)
        | .ok (none, _) => (none, dep, secondarySecret)
        | .ok (some val, _) =>
            let newKey := pathToKey (projAt resource idx).path
            if (alookup secondarySecret.data newKey).isSome then
              (some ("secondary secret " ++ secondarySecret.name ++ " already contains key " ++ newKey),
                dep, secondarySecret)
            else
              projectMountFinish backingServiceName
                ⟨some ⟨secondarySecret.name, [⟨newKey, (projAt resource idx).mount⟩]⟩, none⟩
                dep ci
                { secondarySecret with data := ainsert secondarySecret.data newKey val }

/-- The deployment-side tail of `projectTransform`: project the store and
password keys of the secondary secret into the per-binding volume, mount it
read-only, and add the password env var.  (Split out of `projectTransform`
verbatim; it touches only the deployment.) -/
def projectTransformDeploy (backingServiceName secName storeKey passKey passEnv : String)
    (dep : Deployment) : Option String × Deployment :=
  let vol : Volume := ⟨strToLower ("backing-" ++ backingServiceName),
    some ⟨some 420, [⟨some ⟨secName, [⟨storeKey, storeKey⟩, ⟨passKey, passKey⟩]⟩, none⟩]⟩⟩
  match addVolumeProjectionAndItems dep vol with
  | (some e, dep') => (some e, dep')
  | (none, dep') =>
      let volMnt : VolumeMount := ⟨vol.name, true, backingMountBase ++ backingServiceName⟩
      match nuxeoContainerIdx dep' with
      | none => (some noNuxeoContainerMsg, dep')
      | some ci =>
          let c := (dep'.containers[ci]?).getD emptyContainer
          match addVolMnt c volMnt with
          | (some e, c') => (some e, { dep' with containers := dep'.containers.set ci c' })
          | (none, c') =>
              let env : EnvVar := ⟨passEnv, some ⟨some (secName, passKey), none⟩⟩
              match onlyAdd c' env with
              | (e, c2) => (e, { dep' with containers := dep'.containers.set ci c2 })

/-- Source `projectTransform` (backing_service.go): projects one transform-target
projection.  After the duplicate-key guard and the upstream-value fetch, a
current secondary secret is copied (`loadSecondary`) and otherwise the store
is recomputed (`populateSecondaryNew`); then the store and password keys are
projected into the per-binding volume, the volume is mounted read-only, and
the password env var is added. -/
def projectTransform (cl : Cluster) (rng : Nat) (backingServiceName : String)
    (resource : BackingServiceResource) (idx : Nat) (dep : Deployment)
    (secondarySecret : SecretObj) : Option String × Deployment × SecretObj :=
  let storeKey := (projAt resource idx).transform.store
  let passKey := (projAt resource idx).transform.password
  if (alookup secondarySecret.data storeKey).isSome then
    (some ("key " ++ storeKey ++ " already defined in secret " ++ secondarySecret.name),
      dep, secondarySecret)
  else if (alookup secondarySecret.data passKey).isSome then
    (some ("key " ++ passKey ++ " already defined in secret " ++ secondarySecret.name),
      dep, secondarySecret)
  else
    match getValueFromResource cl resource idx with
    | .error e => (some e, dep, secondarySecret)
    | .ok (resVal, resVer) =>
        let step :=
          if secondarySecretIsCurrent cl secondarySecret.name resource resVer then
            loadSecondary cl resource secondarySecret resVer [storeKey, passKey]
          else
            populateSecondaryNew rng resource secondarySecret storeKey passKey resVer (resVal.getD "")
        match step with
        | (some e, sec') => (some e, dep, sec')
        | (none, sec') =>
            match projectTransformDeploy backingServiceName secondarySecret.name storeKey passKey
                (projAt resource idx).transform.passEnv dep with
            | (e, dep') => (e, dep', sec')

/-! ## Secondary-secret reconciliation against the cluster store -/

/-- Source `addOrUpdate` (generic reconciliation helper), specialized to the Secret
type it is called with here: create the expected object when absent, update
when present and logically different, do nothing when identical.  Create and
Update are modelled as always succeeding. -/
def addOrUpdate (cl : Cluster) (name : String) (expected : SecretObj) :
    Option String × Cluster :=
  match getSecret cl name with
  | .notFound => (none, putSecret cl expected)
  | .err m => (some m, cl)
  | .found fnd =>
      if secretCompare expected fnd then (none, cl) else (none, putSecret cl expected)

/-- Source `removeIfPresent` (generic reconciliation helper): delete the named object
when it exists *and* is owned by the Nuxeo instance; otherwise leave cluster
state unmodified.  (The owner-reference extraction cannot fail on a typed
Secret, so `getOwnerRefs` is modelled as total.) -/
def removeIfPresent (cl : Cluster) (inst : NuxeoInstance) (name : String) :
    Option String × Cluster :=
  match getSecret cl name with
  | .found fnd =>
      if isOwnerUids inst fnd.ownerUids then (none, deleteSecret cl name)
      else (none, cl)
  | .notFound => (none, cl)
  | .err m => (some m, cl)

/-- Source `reconcileSecondary` (backing_service.go): a draft with content must exist
in the cluster (`addOrUpdate`); a draft without content must not
(`removeIfPresent`). -/
def reconcileSecondary (cl : Cluster) (inst : NuxeoInstance)
    (secondarySecret : SecretObj) : Option String × Cluster :=
  if secondarySecret.data.length + secondarySecret.stringData.length ≠ 0 then
    addOrUpdate cl secondarySecret.name secondarySecret
  else
    removeIfPresent cl inst secondarySecret.name

/-! ## The per-binding orchestration loop (`configureBackingService`) -/

/-- The projection dispatch switch of `configureBackingService`.  The fourth
component is the password-generator state, advanced by each transform. -/
def processProjection (cl : Cluster) (rng : Nat) (bsName : String)
    (resource : BackingServiceResource) (i : Nat) (dep : Deployment)
    (sec : SecretObj) : Option String × Deployment × SecretObj × Nat :=
  let projection := projAt resource i
  if (isSecret resource ∨ isConfigMap resource) ∧ projection.env ≠ "" then
    match projectEnvFrom resource i dep with
    | (e, dep') => (e, dep', sec, rng)
  else if projection.mount ≠ "" then
    match projectMount cl bsName resource i dep sec with
    | (e, dep', sec') => (e, dep', sec', rng)
  else if projection.transform ≠ zeroTransform then
    match projectTransform cl rng bsName resource i dep sec with
    | (e, dep', sec') => (e, dep', sec', rng + 1)
  else
    (some ("no handler for projection at ordinal position " ++ toString i ++ " in resource "
      ++ resource.name), dep, sec, rng)

/-- The `for i := 0; i < len(resource.Projections); i++` loop, over an index
list; the first error stops the loop. -/
def processProjections (cl : Cluster) (bsName : String)
    (resource : BackingServiceResource) :
    List Nat → Deployment → SecretObj → Nat → Option String × Deployment × SecretObj × Nat
  | [], dep, sec, rng => (none, dep, sec, rng)
  | i :: rest, dep, sec, rng =>
      match processProjection cl rng bsName resource i dep sec with
      | (some e, dep', sec', rng') => (some e, dep', sec', rng')
      | (none, dep', sec', rng') => processProjections cl bsName resource rest dep' sec' rng'

/-- The resource loop of `configureBackingService`: validate each resource's
projections, then process them in order; the first error stops the loop. -/
def processResources (cl : Cluster) (bsName : String) :
    List BackingServiceResource → Deployment → SecretObj → Nat →
    Option String × Deployment × SecretObj × Nat
  | [], dep, sec, rng => (none, dep, sec, rng)
  | r :: rest, dep, sec, rng =>
      if projectionsAreValid (gvkOf r) r.projections then
        match processProjections cl bsName r (List.range r.projections.length) dep sec rng with
        | (some e, dep', sec', rng') => (some e, dep', sec', rng')
        | (none, dep', sec', rng') => processResources cl bsName rest dep' sec' rng'
      else
        (some ("backing service resource " ++ r.name ++ " has invalid projections"), dep, sec, rng)

/-- Source `configureBackingService` (backing_service.go): build the secondary-secret
draft and deployment artifacts for one binding, then reconcile the draft
against the cluster.  Also returns the draft as it stood at the
reconciliation step, for the statements below. -/
def configureBackingService (cl : Cluster) (inst : NuxeoInstance)
    (backingService : BackingService) (dep : Deployment) (rng : Nat) :
    Option String × Deployment × SecretObj × Cluster :=
  let sec0 := defaultSecondarySecret inst backingService
  match processResources cl backingService.name backingService.resources dep sec0 rng with
  | (some e, dep', sec', _) => (some e, dep', sec', cl)
  | (none, dep', sec', _) =>
      match reconcileSecondary cl inst sec' with
      | (e, cl') => (e, dep', sec', cl')

/-! ## Definitions for stating the claims -/

/-- Number of populated target kinds (env, mount, transform) of a projection. -/
def countTargets (p : ResourceProjection) : Nat :=
  (if p.env ≠ "" then 1 else 0) + (if p.mount ≠ "" then 1 else 0) +
    (if p.transform ≠ zeroTransform then 1 else 0)

/-- The validator rule table written from the (amended) spec's words, for
comparison with `projectionsAreValid`: Secrets/ConfigMaps need a key, no
path, and at least one target; all other kinds need a path, no key, no env
target, and at least one of mount/transform. -/
def validOneSpec (gvk : String) (p : ResourceProjection) : Bool :=
  if gvk = ".v1.secret" ∨ gvk = ".v1.configmap" then
    decide (p.key ≠ "" ∧ p.path = "" ∧
      (p.env ≠ "" ∨ p.mount ≠ "" ∨ p.transform ≠ zeroTransform))
  else
    decide (p.key = "" ∧ p.path ≠ "" ∧ p.env = "" ∧
      (p.mount ≠ "" ∨ p.transform ≠ zeroTransform))

/-- The dispatch switch of `configureBackingService` sends this projection to
`projectTransform` (it is not an env projection of a Secret/ConfigMap, has no
mount target, and has a non-zero transform). -/
def takesTransform (r : BackingServiceResource) (p : ResourceProjection) : Bool :=
  !(decide ((isSecret r ∨ isConfigMap r) ∧ p.env ≠ "")) &&
    decide (p.mount = "") && decide (p.transform ≠ zeroTransform)

/-- The projection is an env projection or a plain Secret/ConfigMap mount
projection — the kinds that never touch the secondary-secret draft. -/
def plainProjection (r : BackingServiceResource) (p : ResourceProjection) : Bool :=
  decide ((isSecret r ∨ isConfigMap r) ∧ (p.env ≠ "" ∨ p.mount ≠ ""))

/-- The named Secret is present in the cluster store. -/
def secretExists (cl : Cluster) (name : String) : Bool :=
  (alookup cl.secrets name).isSome

/-! ## Concrete fixtures for the witnesses and counterexamples -/

/-- A deployment with one container named `nuxeo` and no volumes. -/
def fxDep : Deployment := ⟨[⟨"nuxeo", [], []⟩], []⟩

/-- The empty cluster. -/
def fxEmptyCluster : Cluster := ⟨[], [], [], []⟩

/-- A Secret resource with one mount projection of key `ca.crt`. -/
def fxMountRes : BackingServiceResource :=
  ⟨"", "v1", "secret", "tls-secret", [⟨"ca.crt", "", "", "ca.crt", zeroTransform⟩]⟩

/-- A Secret resource with one transform projection. -/
def fxTransformRes : BackingServiceResource :=
  ⟨"", "v1", "secret", "ca",
    [⟨"tls.crt", "", "", "", ⟨"crtToTrustStore", "store.jks", "store.pass", "TS_PASS"⟩⟩]⟩

/-- The upstream CA secret backing `fxTransformRes`, at version `rv1`. -/
def fxCaObj : SecretObj := ⟨"ca", [], [("tls.crt", "PEMDATA")], [], "rv1", []⟩

/-- The in-cluster secondary secret holding a previously computed store and
password, annotated with version token `rv1` for `fxTransformRes`. -/
def fxHitSecondary : SecretObj :=
  ⟨"nx-secondary-b", [("nuxeo.operator.v1.secret.ca", "rv1")],
    [("store.jks", "OLDSTORE"), ("store.pass", "OLDPASS")], [], "5", ["u1"]⟩

/-- Cluster for the cache-hit case of C1. -/
def fxHitCluster : Cluster :=
  ⟨[("ca", fxCaObj), ("nx-secondary-b", fxHitSecondary)], [], [], []⟩

/-- The secondary secret of `fxHitCluster` but carrying a stale version token. -/
def fxMissSecondary : SecretObj :=
  ⟨"nx-secondary-b", [("nuxeo.operator.v1.secret.ca", "rv0")],
    [("store.jks", "OLDSTORE"), ("store.pass", "OLDPASS")], [], "5", ["u1"]⟩

/-- Cluster for the cache-miss case of C1. -/
def fxMissCluster : Cluster :=
  ⟨[("ca", fxCaObj), ("nx-secondary-b", fxMissSecondary)], [], [], []⟩

/-- The empty secondary-secret draft named `nx-secondary-b`, owned by `u1`. -/
def fxDraft : SecretObj := defaultSecondarySecret ⟨"nx", "u1"⟩ ⟨"b", [], ""⟩

/-- A projection source for Secret `other` (C4 fixture). -/
def fxSrcOther : VolumeProjection := ⟨some ⟨"other", [⟨"a", "b"⟩]⟩, none⟩

/-- A projection source for Secret `s` mapping key `k` to path `p1` (C4). -/
def fxSrcS1 : VolumeProjection := ⟨some ⟨"s", [⟨"k", "p1"⟩]⟩, none⟩

/-- A projection source for Secret `s` mapping key `k` to path `p2` (C4). -/
def fxSrcS2 : VolumeProjection := ⟨some ⟨"s", [⟨"k", "p2"⟩]⟩, none⟩

/-- A deployment whose per-binding volume already holds sources for Secrets
`other` and `s`, in that order (C4 failing input). -/
def fxC4Dep : Deployment :=
  ⟨[⟨"nuxeo", [], []⟩], [⟨"backing-b", some ⟨some 420, [fxSrcOther, fxSrcS1]⟩⟩]⟩

/-- The incoming single-source volume for Secret `s` with the colliding key
`k` at the different path `p2` (C4 failing input). -/
def fxC4ToAdd : Volume := ⟨"backing-b", some ⟨some 420, [fxSrcS2]⟩⟩

/-- An unowned cluster Secret squatting on the secondary-secret name (C3). -/
def fxSquatter : SecretObj :=
  ⟨"nx-secondary-b", [], [("x", "y")], [], "1", ["someone-else"]⟩

/-- Cluster containing only the unowned squatter (C3 counterexample). -/
def fxSquatterCluster : Cluster := ⟨[("nx-secondary-b", fxSquatter)], [], [], []⟩

/-- A non-Secret resource (a Service) with one mount projection addressed by
a JSONPath expression (C5 counterexample). -/
def fxServiceRes : BackingServiceResource :=
  ⟨"", "v1", "service", "psql",
    [⟨"", "\x7b.spec.clusterIP\x7d", "", "ip", zeroTransform⟩]⟩

/-- Cluster holding the Service object backing `fxServiceRes`. -/
def fxServiceCluster : Cluster :=
  ⟨[], [], [("psql", ⟨"psql", [("\x7b.spec.clusterIP\x7d", "10.0.0.1")], []⟩)], []⟩

/-- A deployment whose nuxeo container already has an env var `DB_HOST` (C8). -/
def fxDepWithEnv : Deployment :=
  ⟨[⟨"nuxeo", [⟨"DB_HOST", none⟩], []⟩], []⟩

/-- A ConfigMap resource with one env projection to `DB_HOST` (C8). -/
def fxEnvRes : BackingServiceResource :=
  ⟨"", "v1", "configmap", "db-config", [⟨"host", "", "DB_HOST", "", zeroTransform⟩]⟩

/-- An owned in-cluster secondary secret (C9 witness). -/
def fxOwnedSecondary : SecretObj :=
  ⟨"nx-secondary-b", [], [("x", "y")], [], "3", ["u1"]⟩

/-- Cluster containing only the owned secondary secret (C9 witness). -/
def fxOwnedCluster : Cluster := ⟨[("nx-secondary-b", fxOwnedSecondary)], [], [], []⟩

/-- A draft that already holds the transform's store key (C10 witness). -/
def fxDraftWithStore : SecretObj :=
  ⟨"nx-secondary-b", [], [("store.jks", "X")], [], "", ["u1"]⟩

/-- A binding holding only the transform resource (C5 witness fixture). -/
def fxTransformBinding : BackingService := ⟨"b", [fxTransformRes], ""⟩

/-- A nonempty secondary-secret draft (C3 witness fixture). -/
def fxDraftNonEmpty : SecretObj :=
  ⟨"nx-secondary-b", [], [("k", "v")], [], "", ["u1"]⟩

/-! ## Helper lemmas -/

theorem alookup_ainsert_self (m : List (String × α)) (k : String) (v : α) :
    alookup (ainsert m k v) k = some v := by
  induction m with
  | nil => simp [ainsert, alookup]
  | cons e rest ih =>
      obtain ⟨k', v'⟩ := e
      by_cases h : k' = k
      · simp [ainsert, alookup, h]
      · simp [ainsert, alookup, h, ih]

theorem alookup_ainsert_isSome (m : List (String × α)) (k q : String) (v : α) :
    (alookup (ainsert m k v) q).isSome = true ↔
      (q = k ∨ (alookup m q).isSome = true) := by
  induction m with
  | nil =>
      by_cases h : k = q
      · simp [ainsert, alookup, h]
      · have h2 : ¬ q = k := fun hq => h hq.symm
        simp [ainsert, alookup, h, h2]
  | cons e rest ih =>
      obtain ⟨k', v'⟩ := e
      by_cases h : k' = k
      · by_cases hq : k' = q
        · subst h; subst hq; simp [ainsert, alookup]
        · have h3 : ¬ q = k := fun hqk => hq (h.trans hqk.symm)
          have h4 : ¬ k = q := fun hk => h3 hk.symm
          simp [ainsert, alookup, h, hq, h3, h4]
      · by_cases hq : k' = q
        · have h5 : ¬ q = k := fun hqk => h (hq.trans hqk)
          subst hq
          simp [ainsert, alookup, h, h5]
        · simp [ainsert, alookup, h, hq, ih]

theorem alookup_aerase_self (m : List (String × α)) (k : String) :
    alookup (aerase m k) k = none := by
  induction m with
  | nil => simp [aerase, alookup]
  | cons e rest ih =>
      obtain ⟨k', v'⟩ := e
      by_cases h : k' = k
      · simpa [aerase, alookup, h] using ih
      · simpa [aerase, alookup, h] using ih

theorem getSecret_found_alookup (cl : Cluster) (n : String) (o : SecretObj) :
    getSecret cl n = .found o → alookup cl.secrets n = some o := by
  intro h
  unfold getSecret at h
  split at h
  · cases h
  · cases ha : alookup cl.secrets n with
    | some o2 => rw [ha] at h; cases h; rfl
    | none => rw [ha] at h; cases h

theorem getSecret_notFound_alookup (cl : Cluster) (n : String) :
    getSecret cl n = .notFound → alookup cl.secrets n = none := by
  intro h
  unfold getSecret at h
  split at h
  · cases h
  · cases ha : alookup cl.secrets n with
    | some o2 => rw [ha] at h; cases h
    | none => rfl

theorem findNuxeo_lt (l : List Container) (i : Nat) :
    findNuxeo l = some i → i < l.length := by
  induction l generalizing i with
  | nil => intro h; cases h
  | cons c rest ih =>
      intro h
      unfold findNuxeo at h
      by_cases hn : c.name = "nuxeo"
      · rw [if_pos hn] at h
        injection h with h2
        subst h2
        simp
      · rw [if_neg hn] at h
        cases hr : findNuxeo rest with
        | none => rw [hr] at h; cases h
        | some j =>
            rw [hr] at h
            injection h with h2
            have h3 : j + 1 = i := h2
            have := ih j hr
            simp only [List.length_cons]
            omega

theorem findNuxeo_name (l : List Container) (i : Nat) :
    findNuxeo l = some i → ∃ c, l[i]? = some c ∧ c.name = "nuxeo" := by
  induction l generalizing i with
  | nil => intro h; cases h
  | cons c rest ih =>
      intro h
      unfold findNuxeo at h
      by_cases hn : c.name = "nuxeo"
      · rw [if_pos hn] at h
        injection h with h2
        subst h2
        exact ⟨c, by simp, hn⟩
      · rw [if_neg hn] at h
        cases hr : findNuxeo rest with
        | none => rw [hr] at h; cases h
        | some j =>
            rw [hr] at h
            injection h with h2
            obtain ⟨c2, hc2, hc2n⟩ := ih j hr
            refine ⟨c2, ?_, hc2n⟩
            have h3 : j + 1 = i := h2
            rw [← h3]
            simpa using hc2

theorem getElem?_set_self_list (l : List α) (i : Nat) (a : α) (h : i < l.length) :
    (l.set i a)[i]? = some a := by
  induction l generalizing i with
  | nil => simp at h
  | cons b rest ih =>
      cases i with
      | zero => simp
      | succ j =>
          simp only [List.set_cons_succ, List.getElem?_cons_succ]
          exact ih j (by simpa using h)

theorem mem_of_getElem?_list (l : List α) (i : Nat) (a : α) :
    l[i]? = some a → a ∈ l := by
  induction l generalizing i with
  | nil => intro h; cases h
  | cons b rest ih =>
      cases i with
      | zero => intro h; simp at h; simp [h.symm]
      | succ j =>
          intro h
          simp only [List.getElem?_cons_succ] at h
          exact List.mem_cons_of_mem b (ih j h)

/-! ## Structural lemmas about the merge utilities -/


theorem volLoop_ret_name (name : String) (src : VolumeProjection)
    (vols : List Volume) : ∀ (vols' : List Volume) (e : Option String),
    volLoop name src vols = .ret e vols' → ∃ v ∈ vols', v.name = name := by
  induction vols with
  | nil => intro vols' e h; cases h
  | cons vol rest ih =>
      intro vols' e h
      unfold volLoop at h
      split at h
      next hn =>
        split at h
        next hp =>
          injection h with h1 h2
          exact ⟨vol, by rw [← h2]; exact List.mem_cons_self _ _, hn⟩
        next vp hp =>
          split at h
          next hsrc =>
            split at h
            next e2 vols2 hr =>
              injection h with h1 h2
              exact ⟨vol, by rw [← h2]; exact List.mem_cons_self _ _, hn⟩
            next hr => cases h
          next s ss hsrc =>
            split at h
            next cur ta arm hsame =>
              split at h
              next em merged hm =>
                injection h with h1 h2
                refine ⟨⟨vol.name, some ⟨vp.defaultMode, setSrcItems s arm merged :: ss⟩⟩,
                  by rw [← h2]; exact List.mem_cons_self _ _, hn⟩
            next hsame =>
              injection h with h1 h2
              refine ⟨⟨vol.name, some ⟨vp.defaultMode, (s :: ss) ++ [src]⟩⟩,
                by rw [← h2]; exact List.mem_cons_self _ _, hn⟩
      next hn =>
        split at h
        next e2 vols2 hr =>
          injection h with h1 h2
          obtain ⟨v, hv, hvn⟩ := ih vols2 e2 hr
          exact ⟨v, by rw [← h2]; exact List.mem_cons_of_mem _ hv, hvn⟩
        next hr => cases h

theorem addVPI_name (dep : Deployment) (toAdd : Volume) (dep' : Deployment) :
    addVolumeProjectionAndItems dep toAdd = (none, dep') →
    ∃ v ∈ dep'.volumes, v.name = toAdd.name := by
  intro h
  unfold addVolumeProjectionAndItems at h
  split at h
  · cases h
  next pvs hp =>
    split at h
    · cases h
    · split at h
      next e2 vols2 hl =>
        injection h with h1 h2
        obtain ⟨v, hv, hvn⟩ := volLoop_ret_name _ _ _ _ _ hl
        exact ⟨v, by rw [← h2]; simpa using hv, hvn⟩
      next hl =>
        injection h with h1 h2
        refine ⟨toAdd, ?_, rfl⟩
        rw [← h2]
        simp

theorem addVPI_containers (dep : Deployment) (toAdd : Volume) :
    ((addVolumeProjectionAndItems dep toAdd).2).containers = dep.containers := by
  unfold addVolumeProjectionAndItems
  split
  · rfl
  next pvs hp =>
    split
    · rfl
    · split
      next e2 vols2 hl => rfl
      next hl => rfl

theorem addVolMnt_mem (c : Container) (m : VolumeMount) (c' : Container) :
    addVolMnt c m = (none, c') →
    m ∈ c'.volumeMounts ∧ c'.name = c.name ∧ c'.env = c.env := by
  intro h
  unfold addVolMnt at h
  split at h
  next mnt hf =>
    split at h
    next he =>
      injection h with h1 h2
      subst h2
      exact ⟨he ▸ List.mem_of_find?_eq_some hf, rfl, rfl⟩
    next he => cases h
  next hf =>
    injection h with h1 h2
    subst h2
    exact ⟨by simp, rfl, rfl⟩

theorem projectMountFinish_sec (b : String) (src : VolumeProjection) (dep : Deployment)
    (ci : Nat) (sec : SecretObj) :
    (projectMountFinish b src dep ci sec).2.2 = sec := by
  unfold projectMountFinish
  dsimp only
  split
  · rfl
  · rfl

theorem projectMountFinish_artifacts (b : String) (src : VolumeProjection) (dep : Deployment)
    (ci : Nat) (sec : SecretObj) (dep' : Deployment) (sec2 : SecretObj)
    (hni : nuxeoContainerIdx dep = some ci)
    (h : projectMountFinish b src dep ci sec = (none, dep', sec2)) :
    (∃ v ∈ dep'.volumes, v.name = strToLower ("backing-" ++ b)) ∧
    (∃ c ∈ dep'.containers, c.name = "nuxeo" ∧
      (⟨strToLower ("backing-" ++ b), true, backingMountBase ++ b⟩ : VolumeMount) ∈ c.volumeMounts) := by
  unfold projectMountFinish at h
  dsimp only at h
  split at h
  next e2 dep2 hadd =>
    injection h with h1 h2
    cases h1
  next dep2 hadd =>
    rcases hmnt : addVolMnt ((dep2.containers[ci]?).getD emptyContainer)
        ⟨strToLower ("backing-" ++ b), true, backingMountBase ++ b⟩ with ⟨e3, c3⟩
    rw [hmnt] at h
    injection h with h1 h2
    injection h2 with h2a h2b
    subst h1
    have hc : dep2.containers = dep.containers := by
      have hq := addVPI_containers dep ⟨strToLower ("backing-" ++ b), some ⟨some 420, [src]⟩⟩
      rw [hadd] at hq
      exact hq
    obtain ⟨c0, hc0, hc0n⟩ := findNuxeo_name dep.containers ci hni
    have hlt : ci < dep.containers.length := findNuxeo_lt dep.containers ci hni
    have hcc : (dep2.containers[ci]?).getD emptyContainer = c0 := by
      rw [hc, hc0]
      rfl
    rw [hcc] at hmnt
    obtain ⟨hmem, hname, _⟩ := addVolMnt_mem c0 _ c3 hmnt
    constructor
    · obtain ⟨v, hv, hvn⟩ := addVPI_name dep _ dep2 hadd
      exact ⟨v, by rw [← h2a]; exact hv, hvn⟩
    · refine ⟨c3, ?_, by rw [hname, hc0n], hmem⟩
      rw [← h2a]
      have : (dep.containers.set ci c3)[ci]? = some c3 :=
        getElem?_set_self_list dep.containers ci c3 hlt
      have hm2 := mem_of_getElem?_list (dep.containers.set ci c3) ci c3 this
      simpa [hc] using hm2

/-! ## Behavioural lemmas about the projection operations -/


theorem projectMount_sec_of_kind (cl : Cluster) (b : String)
    (resource : BackingServiceResource) (idx : Nat) (dep : Deployment) (sec : SecretObj)
    (hkind : isSecret resource = true ∨ isConfigMap resource = true) :
    (projectMount cl b resource idx dep sec).2.2 = sec := by
  cases hni : nuxeoContainerIdx dep with
  | none => simp [projectMount, hni]
  | some ci =>
      rcases hkind with hs | hcm
      · simp [projectMount, hni, hs, projectMountFinish_sec]
      · by_cases hs : isSecret resource = true
        · simp [projectMount, hni, hs, projectMountFinish_sec]
        · simp [projectMount, hni, hs, hcm, projectMountFinish_sec]

theorem projectMount_annotations (cl : Cluster) (b : String)
    (resource : BackingServiceResource) (idx : Nat) (dep : Deployment) (sec : SecretObj) :
    ((projectMount cl b resource idx dep sec).2.2).annotations = sec.annotations := by
  by_cases hs : isSecret resource = true
  · rw [projectMount_sec_of_kind cl b resource idx dep sec (Or.inl hs)]
  · by_cases hcm : isConfigMap resource = true
    · rw [projectMount_sec_of_kind cl b resource idx dep sec (Or.inr hcm)]
    · cases hni : nuxeoContainerIdx dep with
      | none => simp [projectMount, hni]
      | some ci =>
          cases hv : getValueFromResource cl resource idx with
          | error e => simp [projectMount, hni, hs, hcm, hv]
          | ok val =>
              rcases val with ⟨ov, rv⟩
              cases ov with
              | none => simp [projectMount, hni, hs, hcm, hv]
              | some v =>
                  by_cases hk : (alookup sec.data (pathToKey (projAt resource idx).path)).isSome = true
                  · simp [projectMount, hni, hs, hcm, hv, hk]
                  · simp [projectMount, hni, hs, hcm, hv, hk, projectMountFinish_sec]

theorem loadSecondary_annotations (cl : Cluster) (resource : BackingServiceResource)
    (sec : SecretObj) (resVer : String) (keys : List String) (sec' : SecretObj)
    (h : loadSecondary cl resource sec resVer keys = (none, sec')) :
    sec'.annotations = ainsert sec.annotations (genAnnotationKey resource) resVer := by
  unfold loadSecondary at h
  split at h
  next o hg =>
    injection h with h1 h2
    rw [← h2]
  next hg => cases h
  next m hg => cases h

theorem populateSecondaryNew_ok (rng : Nat) (resource : BackingServiceResource)
    (sec : SecretObj) (storeKey passKey resVer : String) (resVal : Bytes) (sec' : SecretObj)
    (h : populateSecondaryNew rng resource sec storeKey passKey resVer resVal = (none, sec')) :
    sec'.annotations = ainsert sec.annotations (genAnnotationKey resource) resVer := by
  unfold populateSecondaryNew at h
  dsimp only at h
  split at h
  · cases h
  next store pass hts =>
    injection h with h1 h2
    rw [← h2]

theorem projectTransform_annotations (cl : Cluster) (rng : Nat) (b : String)
    (resource : BackingServiceResource) (idx : Nat) (dep : Deployment) (sec : SecretObj)
    (dep' : Deployment) (sec' : SecretObj)
    (h : projectTransform cl rng b resource idx dep sec = (none, dep', sec')) :
    ∃ v, sec'.annotations = ainsert sec.annotations (genAnnotationKey resource) v := by
  unfold projectTransform at h
  dsimp only at h
  split at h
  · cases h
  · split at h
    · cases h
    · split at h
      · cases h
      next resVal resVer heq =>
        split at h
        next e2 sec2 hstep =>
          cases h
        next sec2 hstep =>
          rcases hd : projectTransformDeploy b sec.name (projAt resource idx).transform.store
              (projAt resource idx).transform.password (projAt resource idx).transform.passEnv dep with ⟨e3, dep3⟩
          rw [hd] at h
          injection h with h1 h2
          injection h2 with h2a h2b
          subst h2b
          split at hstep
          · exact ⟨resVer, loadSecondary_annotations _ _ _ _ _ _ hstep⟩
          · exact ⟨resVer, populateSecondaryNew_ok _ _ _ _ _ _ _ _ hstep⟩

theorem processProjection_annotations (cl : Cluster) (rng : Nat) (b : String)
    (r : BackingServiceResource) (i : Nat) (dep : Deployment) (sec : SecretObj)
    (dep' : Deployment) (sec' : SecretObj) (rng' : Nat)
    (h : processProjection cl rng b r i dep sec = (none, dep', sec', rng')) :
    ∀ q, (alookup sec'.annotations q).isSome = true ↔
      ((q = genAnnotationKey r ∧ takesTransform r (projAt r i) = true) ∨
        (alookup sec.annotations q).isSome = true) := by
  intro q
  unfold processProjection at h
  by_cases hc1 : (isSecret r = true ∨ isConfigMap r = true) ∧ (projAt r i).env ≠ ""
  · have ht : takesTransform r (projAt r i) = false := by
      simp only [takesTransform]
      simp [hc1]
    rcases hpe : projectEnvFrom r i dep with ⟨e2, dep2⟩
    rw [if_pos hc1, hpe] at h
    injection h with h1 h2
    injection h2 with h2a h2b
    injection h2b with h2c h2d
    rw [← h2c, ht]
    simp
  · rw [if_neg hc1] at h
    by_cases hc2 : (projAt r i).mount ≠ ""
    · have ht : takesTransform r (projAt r i) = false := by
        simp only [takesTransform]
        simp [hc2]
      rcases hpm : projectMount cl b r i dep sec with ⟨e2, dep2, sec2⟩
      rw [if_pos hc2, hpm] at h
      injection h with h1 h2
      injection h2 with h2a h2b
      injection h2b with h2c h2d
      have hann : sec2.annotations = sec.annotations := by
        have := projectMount_annotations cl b r i dep sec
        rw [hpm] at this
        exact this
      rw [← h2c, hann, ht]
      simp
    · rw [if_neg hc2] at h
      by_cases hc3 : (projAt r i).transform ≠ zeroTransform
      · have hm : (projAt r i).mount = "" := not_not.mp hc2
        have ht : takesTransform r (projAt r i) = true := by
          simp only [takesTransform]
          simp [hc1, hm, hc3]
        rcases hpt : projectTransform cl rng b r i dep sec with ⟨e2, dep2, sec2⟩
        rw [if_pos hc3, hpt] at h
        injection h with h1 h2
        injection h2 with h2a h2b
        injection h2b with h2c h2d
        subst h1
        obtain ⟨v, hv⟩ := projectTransform_annotations cl rng b r i dep sec dep2 sec2 hpt
        rw [← h2c, hv, ht]
        rw [alookup_ainsert_isSome]
        simp
      · rw [if_neg hc3] at h
        cases h

theorem processProjections_annotations (cl : Cluster) (b : String)
    (r : BackingServiceResource) :
    ∀ (idxs : List Nat) (dep : Deployment) (sec : SecretObj) (rng : Nat)
      (dep' : Deployment) (sec' : SecretObj) (rng' : Nat),
    processProjections cl b r idxs dep sec rng = (none, dep', sec', rng') →
    ∀ q, (alookup sec'.annotations q).isSome = true ↔
      ((q = genAnnotationKey r ∧ ∃ i ∈ idxs, takesTransform r (projAt r i) = true) ∨
        (alookup sec.annotations q).isSome = true) := by
  intro idxs
  induction idxs with
  | nil =>
      intro dep sec rng dep' sec' rng' h q
      unfold processProjections at h
      injection h with h1 h2
      injection h2 with h2a h2b
      injection h2b with h2c h2d
      rw [← h2c]
      simp
  | cons i rest ih =>
      intro dep sec rng dep' sec' rng' h q
      unfold processProjections at h
      rcases hp : processProjection cl rng b r i dep sec with ⟨e1, dep1, sec1, rng1⟩
      rw [hp] at h
      cases e1 with
      | some e2 => cases h
      | none =>
          have hstep := processProjection_annotations cl rng b r i dep sec dep1 sec1 rng1 hp
          have hrest := ih dep1 sec1 rng1 dep' sec' rng' h
          rw [hrest q]
          rw [hstep q]
          constructor
          · rintro (⟨hq, j, hj, hjt⟩ | (⟨hq, hit⟩ | hold))
            · exact Or.inl ⟨hq, j, List.mem_cons_of_mem _ hj, hjt⟩
            · exact Or.inl ⟨hq, i, List.mem_cons_self _ _, hit⟩
            · exact Or.inr hold
          · rintro (⟨hq, j, hj, hjt⟩ | hold)
            · rcases List.mem_cons.mp hj with hji | hjr
              · exact Or.inr (Or.inl ⟨hq, hji ▸ hjt⟩)
              · exact Or.inl ⟨hq, j, hjr, hjt⟩
            · exact Or.inr (Or.inr hold)

theorem range_exists_proj (l : List ResourceProjection) (f : ResourceProjection → Bool) :
    (∃ i ∈ List.range l.length, f ((l[i]?).getD zeroProjection) = true) ↔
      ∃ p ∈ l, f p = true := by
  constructor
  · rintro ⟨i, hi, hf⟩
    have hlt : i < l.length := List.mem_range.mp hi
    have hsome : l[i]? = some (l.get ⟨i, hlt⟩) := List.getElem?_eq_getElem hlt
    refine ⟨l.get ⟨i, hlt⟩, List.get_mem l i hlt, ?_⟩
    rw [hsome] at hf
    simpa using hf
  · rintro ⟨p, hp, hf⟩
    obtain ⟨i, hget⟩ := List.mem_iff_get.mp hp
    refine ⟨i.1, List.mem_range.mpr i.isLt, ?_⟩
    have hsome : l[(i.1 : Nat)]? = some p := by
      rw [List.getElem?_eq_getElem i.isLt]
      rw [← hget]
      simp [List.get_eq_getElem]
    rw [hsome]
    simpa using hf

theorem processResources_annotations (cl : Cluster) (b : String) :
    ∀ (rs : List BackingServiceResource) (dep : Deployment) (sec : SecretObj) (rng : Nat)
      (dep' : Deployment) (sec' : SecretObj) (rng' : Nat),
    processResources cl b rs dep sec rng = (none, dep', sec', rng') →
    ∀ q, (alookup sec'.annotations q).isSome = true ↔
      ((∃ r ∈ rs, (∃ p ∈ r.projections, takesTransform r p = true) ∧ q = genAnnotationKey r) ∨
        (alookup sec.annotations q).isSome = true) := by
  intro rs
  induction rs with
  | nil =>
      intro dep sec rng dep' sec' rng' h q
      unfold processResources at h
      injection h with h1 h2
      injection h2 with h2a h2b
      injection h2b with h2c h2d
      rw [← h2c]
      simp
  | cons r rest ih =>
      intro dep sec rng dep' sec' rng' h q
      unfold processResources at h
      by_cases hvalid : projectionsAreValid (gvkOf r) r.projections = true
      · rw [if_pos hvalid] at h
        rcases hp : processProjections cl b r (List.range r.projections.length) dep sec rng
          with ⟨e1, dep1, sec1, rng1⟩
        rw [hp] at h
        cases e1 with
        | some e2 => cases h
        | none =>
            have hstep := processProjections_annotations cl b r
              (List.range r.projections.length) dep sec rng dep1 sec1 rng1 hp
            have hrest := ih dep1 sec1 rng1 dep' sec' rng' h
            rw [hrest q, hstep q]
            have hconv := range_exists_proj r.projections (takesTransform r)
            constructor
            · rintro (⟨r2, hr2, hr2t, hr2q⟩ | (⟨hq, hex⟩ | hold))
              · exact Or.inl ⟨r2, List.mem_cons_of_mem _ hr2, hr2t, hr2q⟩
              · refine Or.inl ⟨r, List.mem_cons_self _ _, ?_, hq⟩
                exact hconv.mp hex
              · exact Or.inr hold
            · rintro (⟨r2, hr2, hr2t, hr2q⟩ | hold)
              · rcases List.mem_cons.mp hr2 with hrr | hrr
                · subst hrr
                  exact Or.inr (Or.inl ⟨hr2q, hconv.mpr hr2t⟩)
                · exact Or.inl ⟨r2, hrr, hr2t, hr2q⟩
              · exact Or.inr (Or.inr hold)
      · rw [if_neg hvalid] at h
        cases h

theorem processProjection_plain (cl : Cluster) (rng : Nat) (b : String)
    (r : BackingServiceResource) (i : Nat) (dep : Deployment) (sec : SecretObj)
    (hplain : plainProjection r (projAt r i) = true) :
    (processProjection cl rng b r i dep sec).2.2.1 = sec := by
  unfold processProjection
  have hp := of_decide_eq_true hplain
  obtain ⟨hkind, htarget⟩ := hp
  by_cases hc1 : (isSecret r = true ∨ isConfigMap r = true) ∧ (projAt r i).env ≠ ""
  · rcases hpe : projectEnvFrom r i dep with ⟨e2, dep2⟩
    rw [if_pos hc1]
  · rw [if_neg hc1]
    have he : ¬ (projAt r i).env ≠ "" := fun hne => hc1 ⟨hkind, hne⟩
    have hm : (projAt r i).mount ≠ "" := by
      rcases htarget with he2 | hm2
      · exact absurd he2 he
      · exact hm2
    rcases hpm : projectMount cl b r i dep sec with ⟨e2, dep2, sec2⟩
    rw [if_pos hm]
    have hx := projectMount_sec_of_kind cl b r i dep sec hkind
    rw [hpm] at hx
    exact hx

theorem processProjections_plain (cl : Cluster) (b : String) (r : BackingServiceResource)
    (hall : ∀ p ∈ r.projections, plainProjection r p = true) :
    ∀ (idxs : List Nat) (dep : Deployment) (sec : SecretObj) (rng : Nat),
    (∀ i ∈ idxs, i < r.projections.length) →
    (processProjections cl b r idxs dep sec rng).2.2.1 = sec := by
  intro idxs
  induction idxs with
  | nil => intro dep sec rng hbnd; rfl
  | cons i rest ih =>
      intro dep sec rng hbnd
      unfold processProjections
      have hip : plainProjection r (projAt r i) = true := by
        have hlt : i < r.projections.length := hbnd i (List.mem_cons_self _ _)
        have : projAt r i ∈ r.projections := by
          unfold projAt
          rw [List.getElem?_eq_getElem hlt]
          exact List.get_mem r.projections i hlt
        exact hall _ this
      rcases hp : processProjection cl rng b r i dep sec with ⟨e1, dep1, sec1, rng1⟩
      have hsec1 : sec1 = sec := by
        have := processProjection_plain cl rng b r i dep sec hip
        rw [hp] at this
        exact this
      cases e1 with
      | some e2 => exact hsec1
      | none =>
          exact (ih dep1 sec1 rng1 (fun j hj => hbnd j (List.mem_cons_of_mem _ hj))).trans hsec1

theorem processResources_plain (cl : Cluster) (b : String) :
    ∀ (rs : List BackingServiceResource) (dep : Deployment) (sec : SecretObj) (rng : Nat),
    (∀ r ∈ rs, ∀ p ∈ r.projections, plainProjection r p = true) →
    (processResources cl b rs dep sec rng).2.2.1 = sec := by
  intro rs
  induction rs with
  | nil => intro dep sec rng hall; rfl
  | cons r rest ih =>
      intro dep sec rng hall
      unfold processResources
      by_cases hvalid : projectionsAreValid (gvkOf r) r.projections = true
      · rw [if_pos hvalid]
        rcases hp : processProjections cl b r (List.range r.projections.length) dep sec rng
          with ⟨e1, dep1, sec1, rng1⟩
        have hsec1 : sec1 = sec := by
          have := processProjections_plain cl b r (hall r (List.mem_cons_self _ _))
            (List.range r.projections.length) dep sec rng
            (fun i hi => List.mem_range.mp hi)
          rw [hp] at this
          exact this
        cases e1 with
        | some e2 => exact hsec1
        | none =>
            exact (ih dep1 sec1 rng1 (fun r2 hr2 => hall r2 (List.mem_cons_of_mem _ hr2))).trans hsec1
      · rw [if_neg hvalid]

theorem addOrUpdate_exists (cl : Cluster) (expected : SecretObj) (e : Option String)
    (cl' : Cluster) (h : addOrUpdate cl expected.name expected = (e, cl')) (he : e = none) :
    secretExists cl' expected.name = true := by
  subst he
  unfold addOrUpdate at h
  cases hg : getSecret cl expected.name with
  | notFound =>
      rw [hg] at h
      injection h with h1 h2
      subst h2
      simp [secretExists, putSecret, alookup_ainsert_self]
  | err m =>
      rw [hg] at h
      injection h with h1 h2
      cases h1
  | found fnd =>
      rw [hg] at h
      dsimp only at h
      by_cases hcmp : secretCompare expected fnd = true
      · rw [if_pos hcmp] at h
        injection h with h1 h2
        subst h2
        simp [secretExists, getSecret_found_alookup cl expected.name fnd hg]
      · rw [if_neg hcmp] at h
        injection h with h1 h2
        subst h2
        simp [secretExists, putSecret, alookup_ainsert_self]

theorem removeIfPresent_absent (cl : Cluster) (inst : NuxeoInstance) (name : String)
    (e : Option String) (cl' : Cluster)
    (hown : ∀ o, getSecret cl name = .found o → isOwnerUids inst o.ownerUids = true)
    (h : removeIfPresent cl inst name = (e, cl')) (he : e = none) :
    secretExists cl' name = false := by
  subst he
  unfold removeIfPresent at h
  cases hg : getSecret cl name with
  | notFound =>
      rw [hg] at h
      injection h with h1 h2
      subst h2
      simp [secretExists, getSecret_notFound_alookup cl name hg]
  | err m =>
      rw [hg] at h
      injection h with h1 h2
      cases h1
  | found fnd =>
      rw [hg] at h
      dsimp only at h
      rw [if_pos (hown fnd hg)] at h
      injection h with h1 h2
      subst h2
      simp [secretExists, deleteSecret, alookup_aerase_self]

theorem projectTransformDeploy_artifacts (b secName storeKey passKey passEnv : String)
    (dep : Deployment) (dep' : Deployment)
    (h : projectTransformDeploy b secName storeKey passKey passEnv dep = (none, dep')) :
    (∃ v ∈ dep'.volumes, v.name = strToLower ("backing-" ++ b)) ∧
    (∃ c ∈ dep'.containers, c.name = "nuxeo" ∧
      (⟨strToLower ("backing-" ++ b), true, backingMountBase ++ b⟩ : VolumeMount) ∈ c.volumeMounts) := by
  unfold projectTransformDeploy at h
  dsimp only at h
  split at h
  next e2 dep2 hadd =>
    injection h with h1 h2
    cases h1
  next dep2 hadd =>
    have hc : dep2.containers = dep.containers := by
      have hq := addVPI_containers dep
        ⟨strToLower ("backing-" ++ b), some ⟨some 420,
          [⟨some ⟨secName, [⟨storeKey, storeKey⟩, ⟨passKey, passKey⟩]⟩, none⟩]⟩⟩
      rw [hadd] at hq
      exact hq
    split at h
    next hni => cases h
    next ci hni =>
      obtain ⟨c0, hc0, hc0n⟩ := findNuxeo_name dep2.containers ci hni
      have hlt : ci < dep2.containers.length := findNuxeo_lt dep2.containers ci hni
      have hcc : (dep2.containers[ci]?).getD emptyContainer = c0 := by
        rw [hc0]
        rfl
      rcases hmnt : addVolMnt ((dep2.containers[ci]?).getD emptyContainer)
          ⟨strToLower ("backing-" ++ b), true, backingMountBase ++ b⟩ with ⟨e3, c3⟩
      rw [hmnt] at h
      cases e3 with
      | some e4 =>
          injection h with h1 h2
          cases h1
      | none =>
          rw [hcc] at hmnt
          obtain ⟨hmem, hname, henv⟩ := addVolMnt_mem c0 _ c3 hmnt
          dsimp only at h
          rcases hoa : onlyAdd c3 ⟨passEnv, some ⟨some (secName, passKey), none⟩⟩ with ⟨e5, c5⟩
          rw [hoa] at h
          injection h with h1 h2
          subst h1
          have hmem5 : (⟨strToLower ("backing-" ++ b), true, backingMountBase ++ b⟩ : VolumeMount)
              ∈ c5.volumeMounts ∧ c5.name = c3.name := by
            unfold onlyAdd at hoa
            split at hoa
            next existing hgev =>
              split at hoa
              · injection hoa with ho1 ho2
                subst ho2
                exact ⟨hmem, rfl⟩
              · cases hoa
            next hgev =>
              injection hoa with ho1 ho2
              subst ho2
              exact ⟨hmem, rfl⟩
          constructor
          · obtain ⟨v, hv, hvn⟩ := addVPI_name dep _ dep2 hadd
            exact ⟨v, by rw [← h2]; exact hv, hvn⟩
          · refine ⟨c5, ?_, by rw [hmem5.2, hname, hc0n], hmem5.1⟩
            rw [← h2]
            have hset : (dep2.containers.set ci c5)[ci]? = some c5 :=
              getElem?_set_self_list dep2.containers ci c5 hlt
            exact mem_of_getElem?_list _ ci c5 hset

/-! ## The claims -/

/-- C1: for a transform projection whose duplicate-key guard passes, if the
in-cluster secondary secret exists and its annotation for the upstream
reference equals the fetched version token, the store and password bytes
placed in the draft are copied unchanged from the in-cluster secret, the
annotation is set to that token, and the result does not depend on the
password generator (no recomputation, no new password); if the annotation
differs or is absent, the store and password placed in the draft are the
trust-store blob and the freshly generated password produced by the
Transform Engine, and the annotation is set to the current version token. -/
theorem C1_transform_cache_by_version_token (cl : Cluster) (rng : Nat) (bsName : String)
    (resource : BackingServiceResource) (idx : Nat) (dep : Deployment) (sec : SecretObj)
    (obj : SecretObj) (resVal : Option Bytes) (resVer : String)
    (hstore : alookup sec.data (projAt resource idx).transform.store = none)
    (hpass : alookup sec.data (projAt resource idx).transform.password = none)
    (hval : getValueFromResource cl resource idx = .ok (resVal, resVer))
    (hfound : getSecret cl sec.name = .found obj) :
    (alookup obj.annotations (genAnnotationKey resource) = some resVer →
      (projectTransform cl rng bsName resource idx dep sec).2.2 =
        { sec with
          annotations := ainsert sec.annotations (genAnnotationKey resource) resVer
          data := ainsert (ainsert sec.data (projAt resource idx).transform.store
              ((alookup obj.data (projAt resource idx).transform.store).getD ""))
            (projAt resource idx).transform.password
            ((alookup obj.data (projAt resource idx).transform.password).getD "") } ∧
      ∀ rng2, projectTransform cl rng bsName resource idx dep sec =
        projectTransform cl rng2 bsName resource idx dep sec) ∧
    (alookup obj.annotations (genAnnotationKey resource) ≠ some resVer →
      ∀ store pass, toTrustStoreFromBytes rng (resVal.getD "") = .ok (store, pass) →
        (projectTransform cl rng bsName resource idx dep sec).2.2 =
          { sec with
            annotations := ainsert sec.annotations (genAnnotationKey resource) resVer
            data := ainsert (ainsert sec.data (projAt resource idx).transform.store store)
              (projAt resource idx).transform.password pass } ∧
        pass = genPassword rng) := by
  constructor
  · intro hann
    have hcur : secondarySecretIsCurrent cl sec.name resource resVer = true := by
      simp [secondarySecretIsCurrent, hfound, hann]
    constructor
    · cases hdep : projectTransformDeploy bsName sec.name (projAt resource idx).transform.store
          (projAt resource idx).transform.password (projAt resource idx).transform.passEnv dep with
      | mk e dep2 =>
          simp [projectTransform, hstore, hpass, hval, hcur, loadSecondary, hfound, hdep]
    · intro rng2
      simp [projectTransform, hstore, hpass, hval, hcur, loadSecondary, hfound]
  · intro hann
    have hcur : secondarySecretIsCurrent cl sec.name resource resVer = false := by
      unfold secondarySecretIsCurrent
      rw [hfound]
      cases halok : alookup obj.annotations (genAnnotationKey resource) with
      | none => simp [halok]
      | some x =>
          have hx : x ≠ resVer := fun hx => hann (by rw [halok, hx])
          simp [halok, hx]
    intro store pass hts
    constructor
    · cases hdep : projectTransformDeploy bsName sec.name (projAt resource idx).transform.store
          (projAt resource idx).transform.password (projAt resource idx).transform.passEnv dep with
      | mk e dep2 =>
          simp [projectTransform, hstore, hpass, hval, hcur, populateSecondaryNew, hts, hdep]
    · unfold toTrustStoreFromBytes at hts
      split at hts
      · cases hts
      · simp only [Except.ok.injEq, Prod.mk.injEq] at hts
        exact hts.2.symm

/-- Witness for C1: the cache-hit branch evaluated on a concrete cluster
whose secondary secret carries the current version token copies the old
store and password bytes. -/
theorem C1_transform_cache_by_version_token_witness :
    (projectTransform fxHitCluster 42 "b" fxTransformRes 0 fxDep fxDraft).2.2 =
      { fxDraft with
        annotations := ainsert fxDraft.annotations (genAnnotationKey fxTransformRes) "rv1"
        data := ainsert (ainsert fxDraft.data (projAt fxTransformRes 0).transform.store
            ((alookup fxHitSecondary.data (projAt fxTransformRes 0).transform.store).getD ""))
          (projAt fxTransformRes 0).transform.password
          ((alookup fxHitSecondary.data (projAt fxTransformRes 0).transform.password).getD "") } :=
  ((C1_transform_cache_by_version_token fxHitCluster 42 "b" fxTransformRes 0 fxDep fxDraft
    fxHitSecondary (some "PEMDATA") "rv1" (by decide) (by decide) (by decide) (by decide)).1
    (by decide)).1

/-- C2 counterexample: the validator accepts a Secret projection in which two
target kinds (env and mount) are populated at once, so it does not reject
projections with more than one target kind. -/
theorem C2_multi_target_accepted :
    projectionsAreValid ".v1.secret" [⟨"k", "", "E", "m", zeroTransform⟩] = true ∧
    countTargets ⟨"k", "", "E", "m", zeroTransform⟩ = 2 := by decide

/-- C2 (amended): the validator returns true exactly for the two legal
addressing combinations with at least one target kind populated —
Secret/ConfigMap with key set, path unset and at least one of env, mount,
transform; any other kind with path set, key unset, env unset and at least
one of mount, transform.  Projections with zero target kinds are rejected;
multiple populated target kinds are accepted (the dispatch switch later
picks env, then mount, then transform). -/
theorem C2_validator_characterization (gvk : String)
    (projections : List ResourceProjection) :
    projectionsAreValid gvk projections = projections.all (validOneSpec gvk) := by
  induction projections with
  | nil => rfl
  | cons p rest ih =>
      by_cases hk : gvk = ".v1.secret" ∨ gvk = ".v1.configmap"
      · by_cases hbad : p.key = "" ∨ p.path ≠ "" ∨
            (p.env = "" ∧ p.mount = "" ∧ p.transform = zeroTransform)
        · have hgood : ¬(p.key ≠ "" ∧ p.path = "" ∧
              (p.env ≠ "" ∨ p.mount ≠ "" ∨ p.transform ≠ zeroTransform)) := by tauto
          simp [projectionsAreValid, validOneSpec, hk, hbad, hgood]
        · have hgood : p.key ≠ "" ∧ p.path = "" ∧
              (p.env ≠ "" ∨ p.mount ≠ "" ∨ p.transform ≠ zeroTransform) := by tauto
          simp [projectionsAreValid, validOneSpec, hk, hbad, hgood, ih]
      · by_cases hbad : p.key ≠ "" ∨ p.path = "" ∨ p.env ≠ "" ∨
            (p.mount = "" ∧ p.transform = zeroTransform)
        · have hgood : ¬(p.key = "" ∧ p.path ≠ "" ∧ p.env = "" ∧
              (p.mount ≠ "" ∨ p.transform ≠ zeroTransform)) := by tauto
          simp [projectionsAreValid, validOneSpec, hk, hbad, hgood]
        · have hgood : p.key = "" ∧ p.path ≠ "" ∧ p.env = "" ∧
              (p.mount ≠ "" ∨ p.transform ≠ zeroTransform) := by tauto
          simp [projectionsAreValid, validOneSpec, hk, hbad, hgood, ih]

/-- C4: the failing input for the volume merge.  The deployment's per-binding
volume holds projection sources for Secrets `other` and `s`, in that order;
the incoming single-source volume is for Secret `s` with the already-present
key `k` mapped to the different path `p2`.  The claim (and the function's own
doc comment) require an error, but because the source loop returns on its
first iteration, the code returns no error and appends a duplicate source
for Secret `s`, leaving key `k` mapped to both `p1` and `p2`. -/
theorem C4_collision_behind_first_source_not_detected :
    addVolumeProjectionAndItems fxC4Dep fxC4ToAdd =
      (none, ⟨[⟨"nuxeo", [], []⟩],
        [⟨"backing-b", some ⟨some 420, [fxSrcOther, fxSrcS1, fxSrcS2]⟩⟩]⟩) := by decide

/-- C6: the value-lookup operation.  A not-found upstream object yields a nil
value and an empty version token with no error (for Secrets, ConfigMaps and
generic resources alike); a Secret or ConfigMap that exists but lacks the
requested key yields a zero-length value with no error; any retrieval
failure other than not-found is propagated as an error. -/
theorem C6_locator_error_semantics :
    (∀ cl resource idx, gvkOf resource = ".v1.secret" → (projAt resource idx).key ≠ "" →
      getSecret cl resource.name = .notFound →
      getValueFromResource cl resource idx = .ok (none, "")) ∧
    (∀ cl resource idx, gvkOf resource = ".v1.configmap" → (projAt resource idx).key ≠ "" →
      getConfigMap cl resource.name = .notFound →
      getValueFromResource cl resource idx = .ok (none, "")) ∧
    (∀ cl resource idx, gvkOf resource ≠ ".v1.secret" → gvkOf resource ≠ ".v1.configmap" →
      (projAt resource idx).path ≠ "" → getOther cl resource.name = .notFound →
      getValueFromResource cl resource idx = .ok (none, "")) ∧
    (∀ cl resource idx obj, gvkOf resource = ".v1.secret" → (projAt resource idx).key ≠ "" →
      getSecret cl resource.name = .found obj →
      alookup obj.data (projAt resource idx).key = none →
      getValueFromResource cl resource idx = .ok (none, obj.resourceVersion)) ∧
    (∀ cl resource idx obj, gvkOf resource = ".v1.configmap" → (projAt resource idx).key ≠ "" →
      getConfigMap cl resource.name = .found obj →
      alookup obj.data (projAt resource idx).key = none →
      getValueFromResource cl resource idx = .ok (some "", obj.resourceVersion)) ∧
    (∀ cl resource idx m, gvkOf resource = ".v1.secret" → (projAt resource idx).key ≠ "" →
      getSecret cl resource.name = .err m →
      getValueFromResource cl resource idx = .error m) ∧
    (∀ cl resource idx m, gvkOf resource = ".v1.configmap" → (projAt resource idx).key ≠ "" →
      getConfigMap cl resource.name = .err m →
      getValueFromResource cl resource idx = .error m) ∧
    (∀ cl resource idx m, gvkOf resource ≠ ".v1.secret" → gvkOf resource ≠ ".v1.configmap" →
      (projAt resource idx).path ≠ "" → getOther cl resource.name = .err m →
      getValueFromResource cl resource idx = .error m) := by
  refine ⟨?_, ?_, ?_, ?_, ?_, ?_, ?_, ?_⟩
  · intro cl resource idx hgvk hkey hget
    simp [getValueFromResource, hgvk, hkey, hget]
  · intro cl resource idx hgvk hkey hget
    simp [getValueFromResource, hgvk, hkey, hget]
  · intro cl resource idx h1 h2 hpath hget
    simp [getValueFromResource, h1, h2, hpath, hget]
  · intro cl resource idx obj hgvk hkey hget habs
    simp [getValueFromResource, hgvk, hkey, hget, habs]
  · intro cl resource idx obj hgvk hkey hget habs
    simp [getValueFromResource, hgvk, hkey, hget, habs]
  · intro cl resource idx m hgvk hkey hget
    simp [getValueFromResource, hgvk, hkey, hget]
  · intro cl resource idx m hgvk hkey hget
    simp [getValueFromResource, hgvk, hkey, hget]
  · intro cl resource idx m h1 h2 hpath hget
    simp [getValueFromResource, h1, h2, hpath, hget]

/-- Witness for C6: looking up a key of a Secret that does not exist in the
cluster yields a nil value, an empty version token and no error. -/
theorem C6_locator_error_semantics_witness :
    getValueFromResource fxEmptyCluster fxTransformRes 0 = .ok (none, "") :=
  C6_locator_error_semantics.1 fxEmptyCluster fxTransformRes 0
    (by decide) (by decide) (by decide)

/-- C8: for an env-target projection, if the nuxeo container already holds an
environment variable with the projected name the operation returns an error
and leaves the deployment (hence the container's environment) unchanged;
otherwise it appends an environment variable whose value references the
projection key of the original Secret or ConfigMap by object name and key —
not the secondary secret. -/
theorem C8_env_duplicate_rejected_source_referenced (resource : BackingServiceResource)
    (idx : Nat) (dep : Deployment) (ci : Nat) (c : Container)
    (hci : nuxeoContainerIdx dep = some ci) (hc : dep.containers[ci]? = some c) :
    ((getEnvVar c (projAt resource idx).env).isSome = true →
      (projectEnvFrom resource idx dep).1.isSome = true ∧
      (projectEnvFrom resource idx dep).2 = dep) ∧
    (isSecret resource = true → getEnvVar c (projAt resource idx).env = none →
      projectEnvFrom resource idx dep =
        (none, { dep with containers := (dep.containers.set ci
          { c with env := c.env ++ [⟨(projAt resource idx).env,
              some ⟨some (resource.name, (projAt resource idx).key), none⟩⟩] }) })) ∧
    (isConfigMap resource = true → getEnvVar c (projAt resource idx).env = none →
      projectEnvFrom resource idx dep =
        (none, { dep with containers := (dep.containers.set ci
          { c with env := c.env ++ [⟨(projAt resource idx).env,
              some ⟨none, some (resource.name, (projAt resource idx).key)⟩⟩] }) })) := by
  have hsc : ¬(isSecret resource = true ∧ isConfigMap resource = true) := by
    intro ⟨h1, h2⟩
    simp [isSecret, isConfigMap] at h1 h2
    rw [h1] at h2
    exact absurd h2 (by decide)
  refine ⟨?_, ?_, ?_⟩
  · intro hdup
    by_cases h1 : isSecret resource = true
    · constructor <;> simp [projectEnvFrom, h1, hci, hc, hdup]
    · by_cases h2 : isConfigMap resource = true
      · constructor <;> simp [projectEnvFrom, h1, h2, hci, hc, hdup]
      · constructor <;> simp [projectEnvFrom, h1, h2]
  · intro h1 habs
    simp [projectEnvFrom, h1, hci, hc, habs]
  · intro h2 habs
    have h1 : ¬ isSecret resource = true := fun h1 => hsc ⟨h1, h2⟩
    simp [projectEnvFrom, h1, h2, hci, hc, habs]

/-- Witness for C8: projecting `DB_HOST` into a container that already has a
`DB_HOST` environment variable errors and leaves the deployment unchanged. -/
theorem C8_env_duplicate_rejected_source_referenced_witness :
    (projectEnvFrom fxEnvRes 0 fxDepWithEnv).1.isSome = true ∧
    (projectEnvFrom fxEnvRes 0 fxDepWithEnv).2 = fxDepWithEnv :=
  (C8_env_duplicate_rejected_source_referenced fxEnvRes 0 fxDepWithEnv 0
    ⟨"nuxeo", [⟨"DB_HOST", none⟩], []⟩ (by decide) (by decide)).1 (by decide)

/-- C9: when the draft has no data and an object with the secondary secret's
name exists in the cluster, it is deleted exactly when it carries an owner
reference to the Nuxeo instance; an unowned object is never deleted and the
cluster is left unmodified. -/
theorem C9_unowned_secondary_never_deleted (cl : Cluster) (inst : NuxeoInstance)
    (sec : SecretObj) (obj : SecretObj)
    (hd : sec.data = []) (hsd : sec.stringData = [])
    (hfound : getSecret cl sec.name = .found obj) :
    (isOwnerUids inst obj.ownerUids = true →
      reconcileSecondary cl inst sec = (none, deleteSecret cl sec.name)) ∧
    (isOwnerUids inst obj.ownerUids = false →
      reconcileSecondary cl inst sec = (none, cl)) := by
  constructor
  · intro hown; simp [reconcileSecondary, hd, hsd, removeIfPresent, hfound, hown]
  · intro hown; simp [reconcileSecondary, hd, hsd, removeIfPresent, hfound, hown]

/-- Witness for C9: an owned in-cluster secondary secret is deleted when the
draft is empty. -/
theorem C9_unowned_secondary_never_deleted_witness :
    reconcileSecondary fxOwnedCluster ⟨"nx", "u1"⟩ fxDraft =
      (none, deleteSecret fxOwnedCluster fxDraft.name) :=
  (C9_unowned_secondary_never_deleted fxOwnedCluster ⟨"nx", "u1"⟩ fxDraft
    fxOwnedSecondary rfl rfl (by decide)).1 (by decide)

/-- C10: a transform projection whose configured store key or password key is
already present in the draft errors immediately: the deployment and draft are
returned unchanged, and the result is the same for every cluster state and
every password-generator state — so nothing is fetched and no store is
computed. -/
theorem C10_duplicate_transform_keys_rejected_early
    (cl : Cluster) (rng : Nat) (bsName : String) (resource : BackingServiceResource)
    (idx : Nat) (dep : Deployment) (sec : SecretObj)
    (h : (alookup sec.data (projAt resource idx).transform.store).isSome = true ∨
         (alookup sec.data (projAt resource idx).transform.password).isSome = true) :
    (projectTransform cl rng bsName resource idx dep sec).1.isSome = true ∧
    (projectTransform cl rng bsName resource idx dep sec).2 = (dep, sec) ∧
    ∀ cl2 rng2, projectTransform cl rng bsName resource idx dep sec =
        projectTransform cl2 rng2 bsName resource idx dep sec := by
  by_cases hs : (alookup sec.data (projAt resource idx).transform.store).isSome = true
  · refine ⟨by simp [projectTransform, hs], by simp [projectTransform, hs], ?_⟩
    intro cl2 rng2; simp [projectTransform, hs]
  · have hp : (alookup sec.data (projAt resource idx).transform.password).isSome = true := by
      tauto
    refine ⟨by simp [projectTransform, hs, hp], by simp [projectTransform, hs, hp], ?_⟩
    intro cl2 rng2; simp [projectTransform, hs, hp]

/-- Witness for C10: a draft already holding `store.jks` makes the transform
projection fail with the deployment and draft unchanged. -/
theorem C10_duplicate_transform_keys_rejected_early_witness :
    (projectTransform fxEmptyCluster 0 "b" fxTransformRes 0 fxDep fxDraftWithStore).1.isSome = true ∧
    (projectTransform fxEmptyCluster 0 "b" fxTransformRes 0 fxDep fxDraftWithStore).2 =
      (fxDep, fxDraftWithStore) :=
  ⟨(C10_duplicate_transform_keys_rejected_early fxEmptyCluster 0 "b" fxTransformRes 0 fxDep
      fxDraftWithStore (Or.inl (by decide))).1,
   (C10_duplicate_transform_keys_rejected_early fxEmptyCluster 0 "b" fxTransformRes 0 fxDep
      fxDraftWithStore (Or.inl (by decide))).2.1⟩


/-- C3 (amended): after the secondary-secret reconciliation step of a binding
that completes without error, and provided any pre-existing object with the
secondary secret's name is owned by the Nuxeo instance, the secondary secret
is present in the cluster store if and only if the draft has at least one
data entry; and a binding whose projections are all env projections or plain
Secret/ConfigMap mount projections never creates a secondary secret (the
cluster is left unchanged when none existed).  The ownership proviso is
forced by the counterexample: an unowned object of that name is never
deleted. -/
theorem C3_secondary_presence_iff_draft_nonempty :
    (∀ (cl : Cluster) (inst : NuxeoInstance) (sec : SecretObj) (cl' : Cluster),
      (∀ o, getSecret cl sec.name = .found o → isOwnerUids inst o.ownerUids = true) →
      reconcileSecondary cl inst sec = (none, cl') →
      (secretExists cl' sec.name = true ↔ sec.data.length + sec.stringData.length ≠ 0)) ∧
    (∀ (cl : Cluster) (inst : NuxeoInstance) (bs : BackingService) (dep : Deployment)
      (rng : Nat) (e : Option String) (dep' : Deployment) (sec' : SecretObj) (cl' : Cluster),
      (∀ r ∈ bs.resources, ∀ p ∈ r.projections, plainProjection r p = true) →
      getSecret cl (inst.name ++ "-secondary-" ++ bs.name) = .notFound →
      configureBackingService cl inst bs dep rng = (e, dep', sec', cl') →
      cl' = cl) := by
  constructor
  · intro cl inst sec cl' hown h
    by_cases hne : sec.data.length + sec.stringData.length ≠ 0
    · unfold reconcileSecondary at h
      rw [if_pos hne] at h
      have hex := addOrUpdate_exists cl sec none cl' h rfl
      exact ⟨fun _ => hne, fun _ => hex⟩
    · unfold reconcileSecondary at h
      rw [if_neg hne] at h
      have habs := removeIfPresent_absent cl inst sec.name none cl' hown h rfl
      constructor
      · intro hx
        rw [habs] at hx
        cases hx
      · intro hx
        exact absurd hx hne
  · intro cl inst bs dep rng e dep' sec' cl' hplain habsent h
    unfold configureBackingService at h
    dsimp only at h
    rcases hp : processResources cl bs.name bs.resources dep
        (defaultSecondarySecret inst bs) rng with ⟨e1, dep1, sec1, rng1⟩
    rw [hp] at h
    cases e1 with
    | some e2 =>
        injection h with h1 h2
        injection h2 with h2a h2b
        injection h2b with h2c h2d
        exact h2d.symm
    | none =>
        have hsec1 : sec1 = defaultSecondarySecret inst bs := by
          have := processResources_plain cl bs.name bs.resources dep
            (defaultSecondarySecret inst bs) rng hplain
          rw [hp] at this
          exact this
        have hrs : reconcileSecondary cl inst sec1 = (none, cl) := by
          rw [hsec1]
          unfold reconcileSecondary
          have hname : (defaultSecondarySecret inst bs).name =
              inst.name ++ "-secondary-" ++ bs.name := rfl
          simp [defaultSecondarySecret, removeIfPresent, habsent]
        dsimp only at h
        rw [hrs] at h
        injection h with h1 h2
        injection h2 with h2a h2b
        injection h2b with h2c h2d
        exact h2d.symm

/-- C3 counterexample: an unowned cluster Secret squatting on the secondary
secret's name survives reconciliation of an empty draft without error, so
presence is not equivalent to the draft having data. -/
theorem C3_unowned_squatter_persists :
    fxDraft.data.length + fxDraft.stringData.length = 0 ∧
    reconcileSecondary fxSquatterCluster ⟨"nx", "u1"⟩ fxDraft = (none, fxSquatterCluster) ∧
    secretExists fxSquatterCluster fxDraft.name = true := by decide

/-- Witness for C3: reconciling a nonempty draft against the empty cluster
creates the secondary secret. -/
theorem C3_secondary_presence_iff_draft_nonempty_witness :
    secretExists (reconcileSecondary fxEmptyCluster ⟨"nx", "u1"⟩ fxDraftNonEmpty).2
        fxDraftNonEmpty.name = true ↔
      fxDraftNonEmpty.data.length + fxDraftNonEmpty.stringData.length ≠ 0 :=
  C3_secondary_presence_iff_draft_nonempty.1 fxEmptyCluster ⟨"nx", "u1"⟩ fxDraftNonEmpty
    (reconcileSecondary fxEmptyCluster ⟨"nx", "u1"⟩ fxDraftNonEmpty).2
    (by intro o ho; cases ho) (by decide)

/-- C5 (amended): at the point where a binding's secondary-secret draft is
reconciled (the resource loop finished without error), the annotation keys on
the draft are exactly the deterministic keys of the upstream references that
contributed data through a transform projection — one key per
group/version/kind/name.  Data copied by mount projections of non-Secret
sources contributes no annotation, which is what the counterexample forces
the claim to concede. -/
theorem C5_annotations_track_transform_refs (cl : Cluster) (inst : NuxeoInstance) (bs : BackingService)
    (dep : Deployment) (rng : Nat) (dep' : Deployment) (sec' : SecretObj) (rng' : Nat)
    (h : processResources cl bs.name bs.resources dep (defaultSecondarySecret inst bs) rng =
      (none, dep', sec', rng')) :
    ∀ q, (alookup sec'.annotations q).isSome = true ↔
      (∃ r ∈ bs.resources, (∃ p ∈ r.projections, takesTransform r p = true) ∧
        q = genAnnotationKey r) := by
  intro q
  have hx := processResources_annotations cl bs.name bs.resources dep
    (defaultSecondarySecret inst bs) rng dep' sec' rng' h q
  rw [hx]
  simp [defaultSecondarySecret, alookup]

/-- C5 counterexample: a binding whose only projection is a mount of a
generic (Service) resource ends the resource loop without error with one
data entry in the draft and no annotation at all, so the annotation key set
is not the set of references whose data the draft holds. -/
theorem C5_generic_mount_no_annotations :
    (processResources fxServiceCluster "b" [fxServiceRes] fxDep fxDraft 0).1 = none ∧
    (processResources fxServiceCluster "b" [fxServiceRes] fxDep fxDraft 0).2.2.1.data.length = 1 ∧
    (processResources fxServiceCluster "b" [fxServiceRes] fxDep fxDraft 0).2.2.1.annotations = [] := by
  decide

/-- Witness for C5: for a binding with one transform resource, the
deterministic annotation key of that resource is present in the draft at the
reconcile point. -/
theorem C5_annotations_track_transform_refs_witness :
    (alookup ((processResources fxMissCluster "b" [fxTransformRes] fxDep
        (defaultSecondarySecret ⟨"nx", "u1"⟩ fxTransformBinding) 0).2.2.1).annotations
      "nuxeo.operator.v1.secret.ca").isSome = true ↔
    (∃ r ∈ fxTransformBinding.resources,
      (∃ p ∈ r.projections, takesTransform r p = true) ∧
      "nuxeo.operator.v1.secret.ca" = genAnnotationKey r) :=
  C5_annotations_track_transform_refs fxMissCluster ⟨"nx", "u1"⟩ fxTransformBinding fxDep 0
    (processResources fxMissCluster "b" [fxTransformRes] fxDep
      (defaultSecondarySecret ⟨"nx", "u1"⟩ fxTransformBinding) 0).2.1
    (processResources fxMissCluster "b" [fxTransformRes] fxDep
      (defaultSecondarySecret ⟨"nx", "u1"⟩ fxTransformBinding) 0).2.2.1
    (processResources fxMissCluster "b" [fxTransformRes] fxDep
      (defaultSecondarySecret ⟨"nx", "u1"⟩ fxTransformBinding) 0).2.2.2
    (by decide) "nuxeo.operator.v1.secret.ca"

/-- C7 (amended): every successful mount or transform projection of a binding
leaves in the deployment a volume named the lower-casing of
`"backing-" + bindingName`, and a read-only volume mount on the nuxeo
container whose mount path is the fixed binding mount base followed by the
(unaltered) binding name.  The lower-casing is forced by the counterexample:
the code lower-cases the volume name but not the mount path. -/
theorem C7_binding_volume_name_and_mount :
    (∀ (cl : Cluster) (b : String) (resource : BackingServiceResource) (idx : Nat)
      (dep : Deployment) (sec : SecretObj) (dep' : Deployment) (sec' : SecretObj),
      (isSecret resource = true ∨ isConfigMap resource = true) →
      projectMount cl b resource idx dep sec = (none, dep', sec') →
      (∃ v ∈ dep'.volumes, v.name = strToLower ("backing-" ++ b)) ∧
      (∃ c ∈ dep'.containers, c.name = "nuxeo" ∧
        (⟨strToLower ("backing-" ++ b), true, backingMountBase ++ b⟩ : VolumeMount) ∈ c.volumeMounts)) ∧
    (∀ (cl : Cluster) (b : String) (resource : BackingServiceResource) (idx : Nat)
      (dep : Deployment) (sec : SecretObj) (dep' : Deployment) (sec' : SecretObj)
      (v : Bytes) (rv : String),
      getValueFromResource cl resource idx = .ok (some v, rv) →
      projectMount cl b resource idx dep sec = (none, dep', sec') →
      (∃ u ∈ dep'.volumes, u.name = strToLower ("backing-" ++ b)) ∧
      (∃ c ∈ dep'.containers, c.name = "nuxeo" ∧
        (⟨strToLower ("backing-" ++ b), true, backingMountBase ++ b⟩ : VolumeMount) ∈ c.volumeMounts)) ∧
    (∀ (cl : Cluster) (rng : Nat) (b : String) (resource : BackingServiceResource) (idx : Nat)
      (dep : Deployment) (sec : SecretObj) (dep' : Deployment) (sec' : SecretObj),
      projectTransform cl rng b resource idx dep sec = (none, dep', sec') →
      (∃ v ∈ dep'.volumes, v.name = strToLower ("backing-" ++ b)) ∧
      (∃ c ∈ dep'.containers, c.name = "nuxeo" ∧
        (⟨strToLower ("backing-" ++ b), true, backingMountBase ++ b⟩ : VolumeMount) ∈ c.volumeMounts)) := by
  have hmount : ∀ (cl : Cluster) (b : String) (resource : BackingServiceResource) (idx : Nat)
      (dep : Deployment) (sec : SecretObj) (dep' : Deployment) (sec' : SecretObj) (ci : Nat),
      nuxeoContainerIdx dep = some ci →
      isSecret resource = true →
      projectMount cl b resource idx dep sec = (none, dep', sec') →
      (∃ v ∈ dep'.volumes, v.name = strToLower ("backing-" ++ b)) ∧
      (∃ c ∈ dep'.containers, c.name = "nuxeo" ∧
        (⟨strToLower ("backing-" ++ b), true, backingMountBase ++ b⟩ : VolumeMount) ∈ c.volumeMounts) := by
    intro cl b resource idx dep sec dep' sec' ci hni hs h
    unfold projectMount at h
    rw [hni] at h
    dsimp only at h
    rw [if_pos hs] at h
    exact projectMountFinish_artifacts b _ dep ci sec dep' sec' hni h
  have hmountCm : ∀ (cl : Cluster) (b : String) (resource : BackingServiceResource) (idx : Nat)
      (dep : Deployment) (sec : SecretObj) (dep' : Deployment) (sec' : SecretObj) (ci : Nat),
      nuxeoContainerIdx dep = some ci →
      ¬ isSecret resource = true → isConfigMap resource = true →
      projectMount cl b resource idx dep sec = (none, dep', sec') →
      (∃ v ∈ dep'.volumes, v.name = strToLower ("backing-" ++ b)) ∧
      (∃ c ∈ dep'.containers, c.name = "nuxeo" ∧
        (⟨strToLower ("backing-" ++ b), true, backingMountBase ++ b⟩ : VolumeMount) ∈ c.volumeMounts) := by
    intro cl b resource idx dep sec dep' sec' ci hni hs hcm h
    unfold projectMount at h
    rw [hni] at h
    dsimp only at h
    rw [if_neg hs, if_pos hcm] at h
    exact projectMountFinish_artifacts b _ dep ci sec dep' sec' hni h
  refine ⟨?_, ?_, ?_⟩
  · intro cl b resource idx dep sec dep' sec' hkind h
    cases hni : nuxeoContainerIdx dep with
    | none =>
        unfold projectMount at h
        rw [hni] at h
        injection h with h1 h2
        cases h1
    | some ci =>
        by_cases hs : isSecret resource = true
        · exact hmount cl b resource idx dep sec dep' sec' ci hni hs h
        · exact hmountCm cl b resource idx dep sec dep' sec' ci hni hs
            (hkind.resolve_left hs) h
  · intro cl b resource idx dep sec dep' sec' v rv hval h
    cases hni : nuxeoContainerIdx dep with
    | none =>
        unfold projectMount at h
        rw [hni] at h
        injection h with h1 h2
        cases h1
    | some ci =>
        by_cases hs : isSecret resource = true
        · exact hmount cl b resource idx dep sec dep' sec' ci hni hs h
        · by_cases hcm : isConfigMap resource = true
          · exact hmountCm cl b resource idx dep sec dep' sec' ci hni hs hcm h
          · unfold projectMount at h
            rw [hni] at h
            dsimp only at h
            rw [if_neg hs, if_neg hcm, hval] at h
            dsimp only at h
            split at h
            · injection h with h1 h2
              cases h1
            · exact projectMountFinish_artifacts b _ dep ci _ dep' sec' hni h
  · intro cl rng b resource idx dep sec dep' sec' h
    unfold projectTransform at h
    dsimp only at h
    split at h
    · injection h with h1 h2
      cases h1
    · split at h
      · injection h with h1 h2
        cases h1
      · split at h
        · injection h with h1 h2
          cases h1
        next resVal resVer heq =>
          split at h
          next e2 sec2 hstep =>
            injection h with h1 h2
            cases h1
          next sec2 hstep =>
            rcases hd : projectTransformDeploy b sec.name (projAt resource idx).transform.store
                (projAt resource idx).transform.password
                (projAt resource idx).transform.passEnv dep with ⟨e3, dep3⟩
            rw [hd] at h
            injection h with h1 h2
            injection h2 with h2a h2b
            have h1x : e3 = none := h1
            have h2x : dep3 = dep' := h2a
            rw [h1x] at hd
            have hz := projectTransformDeploy_artifacts b sec.name
              (projAt resource idx).transform.store (projAt resource idx).transform.password
              (projAt resource idx).transform.passEnv dep dep3 hd
            rw [← h2x]
            exact hz

/-- C7 counterexample: for the binding name `Elastic` the created volume is
named `backing-elastic`, not `backing-Elastic` as the claim requires. -/
theorem C7_volume_name_lowercased :
    (projectMount fxEmptyCluster "Elastic" fxMountRes 0 fxDep fxDraft).1 = none ∧
    ((projectMount fxEmptyCluster "Elastic" fxMountRes 0 fxDep fxDraft).2.1.volumes.any
      (fun v => v.name = "backing-" ++ "Elastic")) = false ∧
    ((projectMount fxEmptyCluster "Elastic" fxMountRes 0 fxDep fxDraft).2.1.volumes.any
      (fun v => v.name = strToLower ("backing-" ++ "Elastic"))) = true := by decide

/-- Witness for C7: a successful Secret mount projection of binding `b`
creates the volume `backing-b` and the read-only mount at the binding mount
base. -/
theorem C7_binding_volume_name_and_mount_witness :
    (∃ v ∈ ((projectMount fxEmptyCluster "b" fxMountRes 0 fxDep fxDraft).2.1).volumes,
      v.name = strToLower ("backing-" ++ "b")) ∧
    (∃ c ∈ ((projectMount fxEmptyCluster "b" fxMountRes 0 fxDep fxDraft).2.1).containers,
      c.name = "nuxeo" ∧
      (⟨strToLower ("backing-" ++ "b"), true, backingMountBase ++ "b"⟩ : VolumeMount)
        ∈ c.volumeMounts) :=
  C7_binding_volume_name_and_mount.1 fxEmptyCluster "b" fxMountRes 0 fxDep fxDraft
    (projectMount fxEmptyCluster "b" fxMountRes 0 fxDep fxDraft).2.1
    (projectMount fxEmptyCluster "b" fxMountRes 0 fxDep fxDraft).2.2
    (Or.inl (by decide)) (by decide)
